import Mathlib

/-!
SigDigger decoder tab: a shallow embedding.

The development follows `Decoder/DecoderTab.cpp` and, of
`Inspector/InspectorUI.cpp`, the termination stage and the functions around
the decoder chain and the recorder.  Pointers are modelled by the address (a
natural number) of the object they point to, the list editor widget by the
list of its rows, and every call that leaves the tab (calls on the decoder
stack, signals, row highlighting, sub-window management) is appended to a
chronological trace.
-/

namespace SigDigger

/-- A decided symbol (`Symbol` is a byte in the sources). -/
abbrev Symbol := Nat

/-- Modelled from the spec: the stage abstraction `SigDigger::Decoder`, whose
declaration is not among the sources.  A stage is known by its address `id`;
`setInputBps` answers whether the stage accepts an offered input width,
`getOutputBps` is its declared output width and `work` maps a buffer of input
symbols to the symbols it forwards to the next stage. -/
structure Decoder where
  id : Nat
  setInputBps : Nat → Bool
  getOutputBps : Nat
  work : List Symbol → List Symbol

/-- Modelled from the spec: the pair made by a decoder factory
(`Suscan::DecoderObjects`, declared outside the sources), with the members
the sources access: the decoder and the optional UI adapter, known by the
address of its widget.  The `userData` back-reference is kept in
`DecoderTab.userData`. -/
structure DecoderObjects where
  decoder : Decoder
  ui : Option Nat

/-- Modelled from the spec: a row of the list editor (`LayerItem`, whose
declaration is not among the sources), with the members the sources access:
name, description, payload and failed flag.  `data = none` is the null
payload of a whiteout. -/
structure LayerItem where
  name : String
  description : String
  data : Option DecoderObjects
  failed : Bool

/-- Calls observable from outside the tab, in the order they are made. -/
inductive Event where
  | stackClear
  | stackPush (decoder : Nat)
  | stackSetBps (bps : Nat)
  | stackConnect (ok : Bool)
  | stackFeed (buf : List Symbol)
  | stackFlush
  | work (decoder : Nat) (buf : List Symbol)
  | setFailed (index : Nat) (failed : Bool)
  | addSubWindow (widget : Nat)
  | removeSubWindow (widget : Nat)
  | closeSubWindow (widget : Nat)
  | setActiveSubWindow (widget : Nat)
  | changed
  | toggled
  deriving DecidableEq, Repr

/-- States of the decoder stack named by the specification. -/
inductive StackState where
  | EMPTY
  | ASSEMBLING
  | CONNECTED
  | DISCONNECTED
  deriving DecidableEq, Repr

/-- Modelled from the spec: the pipeline engine `DecoderStack`, whose code is
not among the sources: the global input width, the ordered stages and the
state of the state machine `EMPTY → ASSEMBLING → {CONNECTED, DISCONNECTED}`. -/
structure DecoderStack where
  bps : Nat
  decoders : List Decoder
  state : StackState

namespace DecoderStack

/-- Modelled from the spec: `DecoderStack::clear()` empties the sequence;
state → EMPTY. -/
def clear (s : DecoderStack) : DecoderStack :=
  { s with decoders := [], state := StackState.EMPTY }

/-- Modelled from the spec: `DecoderStack::push(stage)` appends to the ordered
sequence; the stack is ASSEMBLING until a `connect()` call. -/
def push (s : DecoderStack) (d : Decoder) : DecoderStack :=
  { s with decoders := s.decoders ++ [d], state := StackState.ASSEMBLING }

/-- Modelled from the spec: `DecoderStack::setBps` records the global input
width. -/
def setBps (s : DecoderStack) (bps : Nat) : DecoderStack :=
  { s with bps := bps }

/-- Modelled from the spec: the validation pass of `DecoderStack::connect()`.
Stages are visited in order; each is offered the declared output width of
its predecessor (`bps` for the first one).  The first stage that rejects,
and every stage after it, is recorded as failed and the result is false. -/
def connectFrom : Nat → List Decoder → Bool × List Decoder
  | _, [] => (true, [])
  | bps, d :: ds =>
    if d.setInputBps bps then connectFrom d.getOutputBps ds
    else (false, d :: ds)

/-- Modelled from the spec: `DecoderStack::connect(failed)`, its result and
the failed list it fills. -/
def connect (s : DecoderStack) : Bool × List Decoder :=
  connectFrom s.bps s.decoders

/-- Modelled from the spec: the stack after `connect()`: CONNECTED when every
stage accepted, DISCONNECTED otherwise. -/
def connected (s : DecoderStack) : DecoderStack :=
  { s with state := if s.connect.1 then StackState.CONNECTED else StackState.DISCONNECTED }

/-- Modelled from the spec: a buffer travelling down the stages; each stage's
`work` is invoked on what its predecessor forwarded. -/
def run : List Decoder → List Symbol → List Event
  | [], _ => []
  | d :: ds, buf => Event.work d.id buf :: run ds (d.work buf)

/-- Modelled from the spec: `DecoderStack::feed(symbols)` forwards the buffer
to the first stage when the stack is CONNECTED and is a no-op otherwise. -/
def feed (s : DecoderStack) (buf : List Symbol) : List Event :=
  if s.state = StackState.CONNECTED then run s.decoders buf else []

/-- Modelled from the spec: `DecoderStack::flush()` lets stages with internal
buffering emit pending output; the stages of this model hold no pending
output, and a partial chain never processes data. -/
def flush (_s : DecoderStack) : List Event :=
  []

end DecoderStack

/-- The termination stage of `InspectorUI.cpp`: `setInputBps` returns true
for every width, `getOutputBps` is 1, and `work` hands its buffer to the
symbol view and forwards nothing. -/
def InspectorUITermination (id : Nat) : Decoder :=
  { id := id
    setInputBps := fun _ => true
    getOutputBps := 1
    work := fun _ => [] }

/-- Faults of the C++ code that the embedding makes explicit. -/
inductive Fault where
  | outOfRange
  | nullDereference
  deriving DecidableEq, Repr

/-- The state of a `DecoderTab`: the rows of `ui->decoderEditor`, the widgets
that own a sub-window of `ui->decoderArea`, the check state of
`ui->toggleDecodeButton`, the members `stack`, `termination`, `throttle`,
`enabled`, `ready`, the `userData` back-references (object address ↦ row
index, latest write first) and the trace of outward calls. -/
structure DecoderTab where
  items : List LayerItem
  subWindows : List Nat
  toggleChecked : Bool
  stack : DecoderStack
  termination : Option Decoder
  throttle : Option Nat
  enabled : Bool
  ready : Bool
  userData : List (Nat × Nat)
  trace : List Event

namespace DecoderTab

/-- Row `idx` with `setFailed(b)` applied. -/
def setFailedAt (items : List LayerItem) (idx : Nat) (b : Bool) : List LayerItem :=
  match items[idx]? with
  | some item => items.set idx { item with failed := b }
  | none => items

/-- The first loop of `rebuildStack` (lines 75-86), `n` rows left, at row `i`:
a row with a payload is un-flagged, its objects get the back-reference to the
row and its decoder is pushed; a whiteout is skipped. -/
def rebuildLoop : Nat → Nat → DecoderTab → DecoderTab
  | 0, _, t => t
  | n + 1, i, t =>
    match t.items[i]? with
    | none => t
    | some item =>
      match item.data with
      | some objects =>
        rebuildLoop n (i + 1)
          { t with
            items := t.items.set i { item with failed := false }
            userData := (objects.decoder.id, i) :: t.userData
            stack := t.stack.push objects.decoder
            trace := t.trace ++ [Event.setFailed i false, Event.stackPush objects.decoder.id] }
      | none => rebuildLoop n (i + 1) t

/-- Lines 88-89 of `rebuildStack`: the termination stage is pushed when one is
installed. -/
def pushTermination (t : DecoderTab) : DecoderTab :=
  match t.termination with
  | some term =>
    { t with stack := t.stack.push term, trace := t.trace ++ [Event.stackPush term.id] }
  | none => t

/-- The second loop of `rebuildStack` (lines 94-100): every failed stage
other than the termination stage flags the row its objects refer to. -/
def markFailed : List Decoder → DecoderTab → DecoderTab
  | [], t => t
  | f :: rest, t =>
    if some f.id ≠ t.termination.map (fun d => d.id) then
      match t.userData.lookup f.id with
      | some idx =>
        markFailed rest
          { t with
            items := setFailedAt t.items idx true
            trace := t.trace ++ [Event.setFailed idx true] }
      | none => markFailed rest t
    else markFailed rest t

/-- The stack as assembled by `rebuildStack` before it calls `connect()`. -/
def assemble (t : DecoderTab) : DecoderTab :=
  pushTermination
    (rebuildLoop t.items.length 0
      { t with stack := t.stack.clear, trace := t.trace ++ [Event.stackClear] })

/-- The function `DecoderTab::rebuildStack`. -/
def rebuildStack (t : DecoderTab) : DecoderTab :=
  let t1 := assemble t
  let r := t1.stack.connect
  let t2 : DecoderTab :=
    { t1 with
      ready := r.1
      stack := t1.stack.connected
      trace := t1.trace ++ [Event.stackConnect r.1] }
  let t3 := if !t2.ready then markFailed r.2 t2 else t2
  { t3 with trace := t3.trace ++ [Event.changed] }

/-- The function `DecoderTab::setInputBps`. -/
def setInputBps (t : DecoderTab) (bps : Nat) : DecoderTab :=
  rebuildStack
    { t with stack := t.stack.setBps bps, trace := t.trace ++ [Event.stackSetBps bps] }

/-- The function `DecoderTab::feed`. -/
def feed (t : DecoderTab) (samples : List Symbol) : DecoderTab :=
  { t with
    trace := t.trace ++ [Event.stackFeed samples] ++ t.stack.feed samples
      ++ [Event.stackFlush] ++ t.stack.flush }

/-- The function `DecoderTab::isEnabled`. -/
def isEnabled (t : DecoderTab) : Bool := t.enabled

/-- The function `DecoderTab::isReady`. -/
def isReady (t : DecoderTab) : Bool := t.ready

/-- The function `DecoderTab::setThrottleControl`. -/
def setThrottleControl (t : DecoderTab) (control : Option Nat) : DecoderTab :=
  { t with throttle := control }

/-- The function `DecoderTab::setTerminationDecoder`. -/
def setTerminationDecoder (t : DecoderTab) (dec : Option Decoder) : DecoderTab :=
  rebuildStack { t with termination := dec }

/-- The function `DecoderTab::findSubWindow`: the sub-window holding the
widget, if any. -/
def findSubWindow (t : DecoderTab) (child : Nat) : Option Nat :=
  t.subWindows.find? (fun w => w == child)

/-- The loop of `DecoderTab::findLayerItem` from row `i` on. -/
def findLayerItemFrom (ui : Option Nat) : Nat → List LayerItem → Int
  | _, [] => -1
  | i, item :: rest =>
    match item.data with
    | some objects =>
      if objects.ui.isSome && objects.ui == ui then (i : Int)
      else findLayerItemFrom ui (i + 1) rest
    | none => findLayerItemFrom ui (i + 1) rest

/-- The function `DecoderTab::findLayerItem`. -/
def findLayerItem (t : DecoderTab) (ui : Option Nat) : Int :=
  findLayerItemFrom ui 0 t.items

/-- Row access `ui->decoderEditor->get(i)`. -/
def getItem (t : DecoderTab) (i : Int) : Except Fault LayerItem :=
  if i < 0 then Except.error Fault.outOfRange
  else
    match t.items[i.toNat]? with
    | some item => Except.ok item
    | none => Except.error Fault.outOfRange

/-- What the decoder dialog hands to `onAddDecoder`: the name and the
description of the chosen factory and the objects its `make()` returns. -/
structure DecoderFactory where
  name : String
  description : String
  make : DecoderObjects

/-- The slot `DecoderTab::onAddDecoder`; `accepted` is the result of running
the dialog and `selected` the factory it reports.  A fresh row is not
flagged. -/
def onAddDecoder (t : DecoderTab) (accepted : Bool) (selected : Option DecoderFactory) :
    DecoderTab :=
  if accepted then
    match selected with
    | some factory =>
      let objects := factory.make
      let item : LayerItem :=
        { name := factory.name
          description := factory.description
          data := some objects
          failed := false }
      let t1 : DecoderTab := { t with items := t.items ++ [item] }
      let t2 : DecoderTab :=
        match objects.ui with
        | some w =>
          { t1 with
            subWindows := t1.subWindows ++ [w]
            trace := t1.trace ++ [Event.addSubWindow w, Event.setActiveSubWindow w] }
        | none => t1
      rebuildStack t2
    | none => t
  else t

/-- The slot `DecoderTab::onToggleDecoder`. -/
def onToggleDecoder (t : DecoderTab) : DecoderTab :=
  let t1 := rebuildStack { t with enabled := t.toggleChecked }
  { t1 with trace := t1.trace ++ [Event.toggled] }

/-- The slot `DecoderTab::onSelectDecoder`. -/
def onSelectDecoder (t : DecoderTab) (i : Int) : Except Fault DecoderTab :=
  if i ≠ -1 then
    match t.getItem i with
    | Except.error e => Except.error e
    | Except.ok item =>
      match item.data with
      | none => Except.error Fault.nullDereference
      | some objects =>
        match objects.ui with
        | some w =>
          match t.findSubWindow w with
          | some subWin =>
            Except.ok { t with trace := t.trace ++ [Event.setActiveSubWindow subWin] }
          | none => Except.ok t
        | none => Except.ok t
  else Except.ok t

/-- The slot `DecoderTab::onMoveDecoder`. -/
def onMoveDecoder (t : DecoderTab) (_src _dst : Int) : DecoderTab :=
  rebuildStack t

/-- The effect of `delete objects` on the back-references: those stored in
the deleted objects are gone. -/
def deleteObjects (userData : List (Nat × Nat)) (objects : Option DecoderObjects) :
    List (Nat × Nat) :=
  match objects with
  | some o => userData.filter (fun p => p.1 != o.decoder.id)
  | none => userData

/-- The slot `DecoderTab::onRemoveDecoder`. -/
def onRemoveDecoder (t : DecoderTab) (i : Int) : Except Fault DecoderTab :=
  match t.getItem i with
  | Except.error e => Except.error e
  | Except.ok item =>
    match item.data with
    | none => Except.error Fault.nullDereference
    | some objects =>
      let t1 : DecoderTab :=
        match objects.ui with
        | some w =>
          { t with
            subWindows := t.subWindows.erase w
            trace := t.trace ++ [Event.removeSubWindow w] ++
              (match t.findSubWindow w with
               | some subWindow => [Event.closeSubWindow subWindow]
               | none => []) }
        | none => t
      Except.ok
        (rebuildStack
          { t1 with
            items := t1.items.set i.toNat { item with data := none }
            userData := deleteObjects t1.userData (some objects) })

/-- The function `SubWindowCloseFilter::eventFilter`, for an event on the
sub-window that holds `child`; `isClose` tells a close event. -/
def eventFilter (t : DecoderTab) (isClose : Bool) (child : Option Nat) : DecoderTab :=
  if isClose then
    let index := t.findLayerItem child
    if index ≠ -1 then
      match t.items[index.toNat]? with
      | some item =>
        rebuildStack
          { t with
            items := t.items.eraseIdx index.toNat
            userData := deleteObjects t.userData item.data }
      | none => t
    else t
  else t

/-- The operations of a `DecoderTab` that can change its state. -/
inductive Op where
  | rebuildStack
  | setInputBps (bps : Nat)
  | feed (samples : List Symbol)
  | setThrottleControl (control : Option Nat)
  | setTerminationDecoder (dec : Option Decoder)
  | onAddDecoder (accepted : Bool) (selected : Option DecoderFactory)
  | onToggleDecoder
  | onSelectDecoder (i : Int)
  | onMoveDecoder (src dst : Int)
  | onRemoveDecoder (i : Int)
  | eventFilter (isClose : Bool) (child : Option Nat)

/-- One operation applied to a tab. -/
def step (t : DecoderTab) : Op → Except Fault DecoderTab
  | Op.rebuildStack => Except.ok t.rebuildStack
  | Op.setInputBps bps => Except.ok (t.setInputBps bps)
  | Op.feed samples => Except.ok (t.feed samples)
  | Op.setThrottleControl control => Except.ok (t.setThrottleControl control)
  | Op.setTerminationDecoder dec => Except.ok (t.setTerminationDecoder dec)
  | Op.onAddDecoder accepted selected => Except.ok (t.onAddDecoder accepted selected)
  | Op.onToggleDecoder => Except.ok t.onToggleDecoder
  | Op.onSelectDecoder i => t.onSelectDecoder i
  | Op.onMoveDecoder src dst => Except.ok (t.onMoveDecoder src dst)
  | Op.onRemoveDecoder i => t.onRemoveDecoder i
  | Op.eventFilter isClose child => Except.ok (t.eventFilter isClose child)

/-- The decoders of the rows that are not whiteouts, in row order. -/
def stages (items : List LayerItem) : List Decoder :=
  items.filterMap (fun item => item.data.map (fun o => o.decoder))

/-- Distinct objects have distinct addresses: the decoders of the rows are
pairwise distinct and none of them is the termination stage. -/
def WellFormed (t : DecoderTab) : Prop :=
  ((stages t.items).map (fun d => d.id) ++ t.termination.toList.map (fun d => d.id)).Nodup

instance (t : DecoderTab) : Decidable t.WellFormed := by
  unfold WellFormed; infer_instance

/-! ### Closed forms and observations used by the theorems -/

/-- What the first loop does to one row. -/
def unflag (item : LayerItem) : LayerItem :=
  match item.data with
  | some _ => { item with failed := false }
  | none => item

/-- The back-references written by the first loop over the rows `rows`, the
first of which is row `i`. -/
def loopUserData : Nat → List LayerItem → List (Nat × Nat) → List (Nat × Nat)
  | _, [], ud => ud
  | i, item :: rest, ud =>
    match item.data with
    | some o => loopUserData (i + 1) rest ((o.decoder.id, i) :: ud)
    | none => loopUserData (i + 1) rest ud

/-- The stack after the first loop has gone over `rows`. -/
def loopStack : List LayerItem → DecoderStack → DecoderStack
  | [], s => s
  | item :: rest, s =>
    match item.data with
    | some o => loopStack rest (s.push o.decoder)
    | none => loopStack rest s

/-- The calls made by the first loop over `rows`, the first of which is row `i`. -/
def loopTrace : Nat → List LayerItem → List Event
  | _, [] => []
  | i, item :: rest =>
    match item.data with
    | some o => Event.setFailed i false :: Event.stackPush o.decoder.id :: loopTrace (i + 1) rest
    | none => loopTrace (i + 1) rest

/-- A row is flagged when its decoder is one of the `bad` ones. -/
def flag (bad : Nat → Bool) (item : LayerItem) : LayerItem :=
  match item.data with
  | some o => if bad o.decoder.id then { item with failed := true } else item
  | none => item

/-- Every row with a payload is what the back-reference of its objects
points to. -/
def Backrefs (items : List LayerItem) (ud : List (Nat × Nat)) : Prop :=
  ∀ (j : Nat) (item : LayerItem) (o : DecoderObjects),
    items[j]? = some item → item.data = some o → ud.lookup o.decoder.id = some j

/-- The calls made by the second loop. -/
def markTrace (term : Option Nat) (ud : List (Nat × Nat)) : List Decoder → List Event
  | [] => []
  | f :: rest =>
    if some f.id ≠ term then
      match ud.lookup f.id with
      | some idx => Event.setFailed idx true :: markTrace term ud rest
      | none => markTrace term ud rest
    else markTrace term ud rest

/-- The width offered to stage `k` of a chain: the global input width for
the first stage, the declared output width of the predecessor otherwise. -/
def offered (bps : Nat) (ds : List Decoder) : Nat → Nat
  | 0 => bps
  | k + 1 =>
    match ds[k]? with
    | some d => d.getOutputBps
    | none => bps

/-- Stage `k` of the chain exists and accepts the width offered to it. -/
def acceptsAt (bps : Nat) (ds : List Decoder) (k : Nat) : Bool :=
  match ds[k]? with
  | some d => d.setInputBps (offered bps ds k)
  | none => false

/-- The decoders that the marking pass of a rebuild flags. -/
def flagged (t : DecoderTab) (d : Nat) : Bool :=
  !(assemble t).stack.connect.1 &&
    (decide (d ∈ (assemble t).stack.connect.2.map (fun x => x.id)) &&
      decide (some d ≠ t.termination.map (fun x => x.id)))

/-- The decoders pushed onto the stack, as recorded in a trace. -/
def pushedIds (evs : List Event) : List Nat :=
  evs.filterMap (fun e =>
    match e with
    | Event.stackPush d => some d
    | _ => none)

/-- The calls on sub-windows made by `onRemoveDecoder` before it rebuilds. -/
def removeTrace (t : DecoderTab) (o : DecoderObjects) : List Event :=
  match o.ui with
  | some w =>
    Event.removeSubWindow w ::
      (match t.findSubWindow w with
       | some subWindow => [Event.closeSubWindow subWindow]
       | none => [])
  | none => []

/-- The results of the `connect()` calls recorded in a trace, in order. -/
def connectResults (evs : List Event) : List Bool :=
  evs.filterMap (fun e =>
    match e with
    | Event.stackConnect ok => some ok
    | _ => none)

/-- The calls made by one `rebuildStack`. -/
def rebuildTrace (t : DecoderTab) : List Event :=
  Event.stackClear :: loopTrace 0 t.items ++
    t.termination.toList.map (fun d => Event.stackPush d.id) ++
    Event.stackConnect (assemble t).stack.connect.1 ::
      ((if (assemble t).stack.connect.1 then []
        else markTrace (t.termination.map (fun d => d.id)) (assemble t).userData
          (assemble t).stack.connect.2) ++ [Event.changed])

/-- The relation between a tab and its successor that C7 is about: the
successor's trace extends the tab's, and its ready flag is the result of the
last `connect()` call among the new calls, or unchanged without one. -/
def ReadyTracks (t u : DecoderTab) : Prop :=
  ∃ evs, u.trace = t.trace ++ evs ∧
    u.ready = ((connectResults evs).getLast?).getD t.ready

end DecoderTab

/-! ### Output width of the stack and the inspector around the tab -/

namespace DecoderStack

/-- Modelled from the spec: `DecoderStack::getBps()`, the stack's effective
output width.  The specification fixes it for a CONNECTED stack, where it is
the termination (last) stage's output width; for any other state this model
reports the global input width. -/
def getBps (s : DecoderStack) : Nat :=
  match s.state with
  | StackState.CONNECTED =>
    match s.decoders.getLast? with
    | some d => d.getOutputBps
    | none => s.bps
  | _ => s.bps

/-- Modelled from the spec: the width that the validation pass of
`DecoderStack::connect()` offers to the last stage of the sequence, when
every stage before it accepted; `none` when the pass stops earlier or there
is no stage. -/
def offeredToLast : Nat → List Decoder → Option Nat
  | _, [] => none
  | bps, [_] => some bps
  | bps, d :: e :: ds =>
    if d.setInputBps bps then offeredToLast d.getOutputBps (e :: ds) else none

end DecoderStack

namespace DecoderTab

/-- The function `DecoderTab::getOutputBps`. -/
def getOutputBps (t : DecoderTab) : Nat :=
  t.stack.getBps

/-- The test of `DecoderTab::findLayerItem` on one row: the row has a
payload with a UI adapter whose widget is `ui`. -/
def ownsWidget (ui : Option Nat) (item : LayerItem) : Bool :=
  match item.data with
  | some objects => objects.ui.isSome && objects.ui == ui
  | none => false

/-- The calls `feed` and `flush` on the stack recorded in a trace. -/
def stackCalls (evs : List Event) : List Event :=
  evs.filter (fun e =>
    match e with
    | Event.stackFeed _ => true
    | Event.stackFlush => true
    | _ => false)

end DecoderTab

/-- A complex baseband sample; the embedding never looks at its value. -/
abbrev Sample := Nat

/-- Calls of `InspectorUI::feed` on its consumers, in the order made. -/
inductive UiEvent where
  | constellationFeed (size : Nat)
  | histogramFeed (size : Nat)
  | tabFeed (syms : List Symbol)
  | symViewFeed (syms : List Symbol)
  | transitionFeed (syms : List Symbol)
  | saverWrite (size : Nat)
  deriving DecidableEq, Repr

/-- The part of the state of an `InspectorUI` that the decoder chain and the
recorder touch: the decoder tab, the flags `decoderChainEnabled`,
`demodulating` and `recording`, the data saver (known by its descriptor)
and `fd`, `recordingRate`, the record state shown by the saver UI, the
configuration values `afc.`, `fsk.`, `ask.bits-per-symbol` and `clock.baud`
(the latter already converted to an unsigned integer), the decider (its
width, whether it decides on the modulus, and the symbols it decides for a
buffer), the symbol view's bits per symbol and the calls made by `feed`. -/
structure InspectorUI where
  decoderTab : DecoderTab
  decoderChainEnabled : Bool
  demodulating : Bool
  recording : Bool
  dataSaver : Option Int
  fd : Int
  recordingRate : Nat
  recordState : Bool
  afcBps : Option Nat
  fskBps : Option Nat
  askBps : Option Nat
  clockBaud : Option Nat
  deciderBps : Nat
  deciderModulus : Bool
  decider : List Sample → List Symbol
  symViewBps : Nat
  calls : List UiEvent

namespace InspectorUI

/-- The function `InspectorUI::getBaudRate`. -/
def getBaudRate (ui : InspectorUI) : Nat :=
  match ui.clockBaud with
  | some v => v
  | none => 1

/-- The function `InspectorUI::getDemodBps`; the configured value is a 64-bit
unsigned integer cast to `unsigned int`. -/
def getDemodBps (ui : InspectorUI) : Nat :=
  match ui.afcBps with
  | some v => v % 4294967296
  | none =>
    match ui.fskBps with
    | some v => v % 4294967296
    | none =>
      match ui.askBps with
      | some v => v % 4294967296
      | none => 1

/-- The function `InspectorUI::getDecoderBps`. -/
def getDecoderBps (ui : InspectorUI) : Nat :=
  ui.decoderTab.getOutputBps

/-- The function `InspectorUI::getBps`. -/
def getBps (ui : InspectorUI) : Nat :=
  let bps := if ui.decoderChainEnabled then ui.getDecoderBps else ui.getDemodBps
  if bps = 0 then 1 else bps

/-- The function `InspectorUI::refreshBps`: the decider gets the demodulator's
width, the symbol view the output width. -/
def refreshBps (ui : InspectorUI) : InspectorUI :=
  { ui with deciderBps := ui.getDemodBps, symViewBps := ui.getBps }

/-- The slot `InspectorUI::onDecoderTabChanged`. -/
def onDecoderTabChanged (ui : InspectorUI) : InspectorUI :=
  if ui.decoderChainEnabled then ui.refreshBps else ui

/-- The function `InspectorUITermination::setInputBps` as called by the
`connect()` of the tab's stack: when a termination stage is installed and the
validation pass gets to it, the width offered to it is written into the
symbol view. -/
def terminationSetInputBps (ui : InspectorUI) : InspectorUI :=
  match ui.decoderTab.termination with
  | some _ =>
    match DecoderStack.offeredToLast ui.decoderTab.stack.bps ui.decoderTab.stack.decoders with
    | some w => { ui with symViewBps := w }
    | none => ui
  | none => ui

/-- One `rebuildStack` of the tab, ending in the tab state `t`, as the
inspector sees it: `connect()` calls the termination stage, then `changed`
reaches `onDecoderTabChanged`. -/
def tabRebuilt (ui : InspectorUI) (t : DecoderTab) : InspectorUI :=
  onDecoderTabChanged (terminationSetInputBps { ui with decoderTab := t })

/-- The slot `InspectorUI::onDecoderTabToggled`. -/
def onDecoderTabToggled (ui : InspectorUI) : InspectorUI :=
  let t := ui.decoderTab.setInputBps (ui.getDemodBps % 256)
  let ui1 := tabRebuilt ui t
  refreshBps { ui1 with decoderChainEnabled := t.isEnabled }

/-- An operation of the decoder tab inside the inspector: the tab performs
it; if it rebuilt the stack, the inspector sees the rebuild; the `toggled`
signal of `onToggleDecoder` reaches `onDecoderTabToggled`. -/
def tabOp (ui : InspectorUI) (op : DecoderTab.Op) : Except Fault InspectorUI :=
  match DecoderTab.step ui.decoderTab op with
  | Except.error e => Except.error e
  | Except.ok t =>
    let ui1 :=
      if (DecoderTab.connectResults (t.trace.drop ui.decoderTab.trace.length)).isEmpty then
        { ui with decoderTab := t }
      else tabRebuilt ui t
    match op with
    | DecoderTab.Op.onToggleDecoder => Except.ok (onDecoderTabToggled ui1)
    | _ => Except.ok ui1

/-- The function `InspectorUI::installDataSaver`; `fdResult` is what `open`
returns for the capture file. -/
def installDataSaver (ui : InspectorUI) (fdResult : Int) : Bool × InspectorUI :=
  if ui.dataSaver = none then
    if fdResult = -1 then (false, { ui with fd := fdResult })
    else
      (true,
        { ui with
          fd := fdResult
          dataSaver := some fdResult
          recordingRate := ui.getBaudRate })
  else (false, ui)

/-- The function `InspectorUI::uninstallDataSaver`. -/
def uninstallDataSaver (ui : InspectorUI) : InspectorUI :=
  { ui with dataSaver := none, fd := -1 }

/-- The slot `InspectorUI::onToggleRecord`. -/
def onToggleRecord (ui : InspectorUI) (fdResult : Int) : InspectorUI :=
  let r : Bool × InspectorUI :=
    if ui.recordState then ui.installDataSaver fdResult
    else (false, ui.uninstallDataSaver)
  { r.2 with recording := r.1, recordState := r.1 }

/-- The slot `InspectorUI::onSaveError`. -/
def onSaveError (ui : InspectorUI) : InspectorUI :=
  if ui.dataSaver ≠ none then { ui.uninstallDataSaver with recordState := false }
  else ui

/-- The slot `InspectorUI::onSaveSwamped`. -/
def onSaveSwamped (ui : InspectorUI) : InspectorUI :=
  if ui.dataSaver ≠ none then { ui.uninstallDataSaver with recordState := false }
  else ui

/-- The slot `InspectorUI::onInspectorControlChanged`; `fdResult` is what `open`
returns if a capture file is opened.  Enabling the saver UI, resetting the
histogram and the signal `configChanged` are left out. -/
def onInspectorControlChanged (ui : InspectorUI) (fdResult : Int) : InspectorUI :=
  let newRate := ui.getBaudRate
  let ui1 : InspectorUI :=
    if ui.recording then
      let ui2 : InspectorUI :=
        if newRate = 0 then { ui.uninstallDataSaver with recording := false }
        else if newRate ≠ ui.recordingRate then
          let r := ui.uninstallDataSaver.installDataSaver fdResult
          { r.2 with recording := r.1 }
        else ui
      { ui2 with recordState := ui2.recording }
    else ui
  ui1.refreshBps

/-- The demodulating part of `InspectorUI::feed` (lines 582-602). -/
def feedSymbols (ui : InspectorUI) (data : List Sample) : InspectorUI :=
  if ui.demodulating then
    if ui.deciderBps > 0 then
      let syms := ui.decider data
      if ui.decoderChainEnabled then
        { ui with
          decoderTab := ui.decoderTab.feed syms
          calls := ui.calls ++ [UiEvent.tabFeed syms, UiEvent.transitionFeed syms] }
      else
        { ui with
          calls := ui.calls ++ [UiEvent.symViewFeed syms, UiEvent.transitionFeed syms] }
    else ui
  else ui

/-- The recording part of `InspectorUI::feed` (lines 604-616): both branches
write `size` items through the data saver. -/
def feedRecord (ui : InspectorUI) (data : List Sample) : Except Fault InspectorUI :=
  if ui.recording then
    match ui.dataSaver with
    | some _ => Except.ok { ui with calls := ui.calls ++ [UiEvent.saverWrite data.length] }
    | none => Except.error Fault.nullDereference
  else Except.ok ui

/-- The function `InspectorUI::feed`; the SNR estimator branch, which only
drives the histogram and a label, is left out. -/
def feed (ui : InspectorUI) (data : List Sample) : Except Fault InspectorUI :=
  feedRecord
    (feedSymbols
      { ui with
        calls := ui.calls ++
          [UiEvent.constellationFeed data.length, UiEvent.histogramFeed data.length] }
      data)
    data

/-- A click on the checkable toggle button of the tab: the button changes
its check state and `clicked` reaches `onToggleDecoder`. -/
def clickToggle (ui : InspectorUI) : Except Fault InspectorUI :=
  tabOp
    { ui with
      decoderTab :=
        { ui.decoderTab with toggleChecked := !ui.decoderTab.toggleChecked } }
    DecoderTab.Op.onToggleDecoder

/-- The calls that hand decided symbols to a consumer: to the decoder tab or
directly to the symbol view. -/
def routed (calls : List UiEvent) : List UiEvent :=
  calls.filter (fun e =>
    match e with
    | UiEvent.tabFeed _ => true
    | UiEvent.symViewFeed _ => true
    | _ => false)

end InspectorUI

/-- The fault an operation ended in, if it did. -/
def faultOf {α : Type} : Except Fault α → Option Fault
  | Except.error e => some e
  | Except.ok _ => none

/-! ### The stages of the example scenario -/

/-- A stage that requires input width `w` and declares output width `o`. -/
def fixedStage (id w o : Nat) : Decoder :=
  { id := id
    setInputBps := fun bps => bps == w
    getOutputBps := o
    work := fun buf => buf }

/-- A row holding a decoder without UI adapter. -/
def rowOf (d : Decoder) : LayerItem :=
  { name := "", description := "", data := some { decoder := d, ui := none }, failed := false }

/-- Stage A of the scenario: in = 1, out = 1. -/
def stageA : Decoder := fixedStage 10 1 1

/-- Stage B of the scenario: in = 1, out = 2. -/
def stageB : Decoder := fixedStage 11 1 2

/-- Stage C of the scenario: in = 2, out = 1. -/
def stageC : Decoder := fixedStage 12 2 1

/-- A tab as built by the constructor, with the given rows, the inspector's
termination stage installed and global input width `bps`. -/
def tabOf (rows : List LayerItem) (bps : Nat) : DecoderTab :=
  { items := rows
    subWindows := []
    toggleChecked := false
    stack := { bps := bps, decoders := [], state := StackState.EMPTY }
    termination := some (InspectorUITermination 99)
    throttle := none
    enabled := false
    ready := false
    userData := []
    trace := [] }

/-- The scenario order [A, B, C] with global input width 1. -/
def tabABC : DecoderTab := tabOf [rowOf stageA, rowOf stageB, rowOf stageC] 1

/-- The swapped order [B, A, C] with global input width 1. -/
def tabBAC : DecoderTab := tabOf [rowOf stageB, rowOf stageA, rowOf stageC] 1

/-- A row holding a decoder whose UI adapter has widget `w`. -/
def rowWithUi (d : Decoder) (w : Nat) : LayerItem :=
  { name := "", description := "", data := some { decoder := d, ui := some w }, failed := false }

/-- The scenario [A, B, C] where B and C come with auxiliary windows 7 and 8. -/
def tabUi : DecoderTab :=
  { tabOf [rowOf stageA, rowWithUi stageB 7, rowWithUi stageC 8] 1 with subWindows := [7, 8] }

/-- The factory entry of stage B, without UI adapter. -/
def factoryB : DecoderTab.DecoderFactory :=
  { name := "B", description := "", make := { decoder := stageB, ui := none } }

/-- An inspector around the tab `t`, demodulating with nothing configured
(demodulator width 1), not recording, symbol view at width 1, with the
decoder chain enabled or bypassed as told. -/
def uiOf (t : DecoderTab) (chainEnabled : Bool) : InspectorUI :=
  { decoderTab := t
    decoderChainEnabled := chainEnabled
    demodulating := true
    recording := false
    dataSaver := none
    fd := -1
    recordingRate := 0
    recordState := false
    afcBps := none
    fskBps := none
    askBps := none
    clockBaud := none
    deciderBps := 1
    deciderModulus := false
    decider := fun data => data.map (fun x => x % 2)
    symViewBps := 1
    calls := [] }

end SigDigger

/-! ## Closed forms of the first loop of `rebuildStack` -/

namespace SigDigger

namespace DecoderTab

theorem rebuildLoop_eq (suf : List LayerItem) :
    ∀ (pre : List LayerItem) (t : DecoderTab), t.items = pre ++ suf →
      rebuildLoop suf.length pre.length t =
        { t with
          items := pre ++ suf.map unflag
          userData := loopUserData pre.length suf t.userData
          stack := loopStack suf t.stack
          trace := t.trace ++ loopTrace pre.length suf } := by
  induction suf with
  | nil =>
    intro pre t h
    cases t
    simp at h
    simp [rebuildLoop, loopUserData, loopStack, loopTrace, h]
  | cons item rest ih =>
    intro pre t h
    have hget : t.items[pre.length]? = some item := by
      rw [h, List.getElem?_append_right (le_refl _)]; simp
    simp only [List.length_cons, rebuildLoop, hget]
    cases hd : item.data with
    | none =>
      have h2 := ih (pre ++ [item]) t (by simp [h])
      simp only [List.length_append, List.length_singleton] at h2
      simp [h2, unflag, hd, loopUserData, loopStack, loopTrace]
    | some o =>
      have h2 := ih (pre ++ [{ item with failed := false }])
        { t with
          items := t.items.set pre.length { item with failed := false }
          userData := (o.decoder.id, pre.length) :: t.userData
          stack := t.stack.push o.decoder
          trace := t.trace ++ [Event.setFailed pre.length false, Event.stackPush o.decoder.id] }
        (by simp [h])
      simp only [List.length_append, List.length_singleton, hd] at h2
      show rebuildLoop rest.length (pre.length + 1) _ = _
      rw [h2]
      simp [unflag, hd, loopUserData, loopStack, loopTrace]

theorem loopStack_decoders (rows : List LayerItem) :
    ∀ s : DecoderStack, (loopStack rows s).decoders = s.decoders ++ stages rows := by
  induction rows with
  | nil => intro s; simp [loopStack, stages]
  | cons item rest ih =>
    intro s
    cases hd : item.data with
    | none => simp [loopStack, hd, ih, stages]
    | some o => simp [loopStack, hd, ih, stages, DecoderStack.push]

theorem loopStack_bps (rows : List LayerItem) :
    ∀ s : DecoderStack, (loopStack rows s).bps = s.bps := by
  induction rows with
  | nil => intro s; simp [loopStack]
  | cons item rest ih =>
    intro s
    cases hd : item.data with
    | none => simp [loopStack, hd, ih]
    | some o => simp [loopStack, hd, ih, DecoderStack.push]

theorem loopTrace_mem (rows : List LayerItem) :
    ∀ (i : Nat) (e : Event), e ∈ loopTrace i rows →
      (∃ j, e = Event.setFailed j false) ∨ ∃ d, e = Event.stackPush d := by
  induction rows with
  | nil => intro i e h; simp [loopTrace] at h
  | cons item rest ih =>
    intro i e h
    cases hd : item.data with
    | none =>
      simp only [loopTrace, hd] at h
      exact ih _ _ h
    | some o =>
      simp only [loopTrace, hd, List.mem_cons] at h
      rcases h with h | h | h
      · exact Or.inl ⟨i, h⟩
      · exact Or.inr ⟨_, h⟩
      · exact ih _ _ h

theorem stages_unflag (rows : List LayerItem) : stages (rows.map unflag) = stages rows := by
  induction rows with
  | nil => rfl
  | cons item rest ih =>
    cases hd : item.data with
    | none =>
      simp only [stages, List.map_cons, List.filterMap_cons] at ih ⊢
      simp [unflag, hd, ih]
    | some o =>
      simp only [stages, List.map_cons, List.filterMap_cons] at ih ⊢
      simp [unflag, hd, ih]

theorem loopUserData_lookup_of_not_mem (rows : List LayerItem) :
    ∀ (i : Nat) (ud : List (Nat × Nat)) (d : Nat),
      d ∉ (stages rows).map (fun x => x.id) →
      (loopUserData i rows ud).lookup d = ud.lookup d := by
  induction rows with
  | nil => intro i ud d _; simp [loopUserData]
  | cons item rest ih =>
    intro i ud d h
    cases hd : item.data with
    | none =>
      simp only [loopUserData, hd]
      apply ih
      simpa [stages, hd] using h
    | some o =>
      simp only [loopUserData, hd]
      have h1 : d ≠ o.decoder.id ∧ d ∉ (stages rest).map (fun x => x.id) := by
        simpa [stages, hd] using h
      rw [ih _ _ _ h1.2]
      have h3 : (d == o.decoder.id) = false := by simpa using h1.1
      simp [List.lookup, h3]

theorem loopUserData_lookup (rows : List LayerItem) :
    ∀ (i : Nat) (ud : List (Nat × Nat)) (k : Nat) (item : LayerItem) (o : DecoderObjects),
      ((stages rows).map (fun x => x.id)).Nodup →
      rows[k]? = some item → item.data = some o →
      (loopUserData i rows ud).lookup o.decoder.id = some (i + k) := by
  induction rows with
  | nil => intro i ud k item o _ h; simp at h
  | cons r rest ih =>
    intro i ud k item o hnd hk ho
    cases k with
    | zero =>
      simp only [List.getElem?_cons_zero, Option.some.injEq] at hk
      subst hk
      have hnd2 : o.decoder.id ∉ (stages rest).map (fun x => x.id) := by
        have := hnd
        simp only [stages, List.filterMap_cons, ho, Option.map_some', List.map_cons,
          List.nodup_cons] at this
        exact this.1
      simp only [loopUserData, ho]
      rw [loopUserData_lookup_of_not_mem _ _ _ _ hnd2]
      simp [List.lookup]
    | succ k =>
      simp only [List.getElem?_cons_succ] at hk
      have hnd2 : ((stages rest).map (fun x => x.id)).Nodup := by
        cases hr : r.data with
        | none => simpa [stages, hr] using hnd
        | some o2 =>
          have := hnd
          simp only [stages, List.filterMap_cons, hr, Option.map_some', List.map_cons,
            List.nodup_cons] at this
          exact this.2
      cases hr : r.data with
      | none =>
        simp only [loopUserData, hr]
        rw [ih (i + 1) ud k item o hnd2 hk ho]
        congr 1; omega
      | some o2 =>
        simp only [loopUserData, hr]
        rw [ih (i + 1) _ k item o hnd2 hk ho]
        congr 1; omega

theorem assemble_eq (t : DecoderTab) :
    assemble t =
      pushTermination
        { t with
          items := t.items.map unflag
          userData := loopUserData 0 t.items t.userData
          stack := loopStack t.items t.stack.clear
          trace := t.trace ++ Event.stackClear :: loopTrace 0 t.items } := by
  unfold assemble
  have h := rebuildLoop_eq t.items []
    { t with stack := t.stack.clear, trace := t.trace ++ [Event.stackClear] } (by simp)
  simp only [List.length_nil] at h
  rw [h]
  simp

theorem assemble_items (t : DecoderTab) : (assemble t).items = t.items.map unflag := by
  rw [assemble_eq]; unfold pushTermination; cases t.termination <;> rfl

theorem assemble_userData (t : DecoderTab) :
    (assemble t).userData = loopUserData 0 t.items t.userData := by
  rw [assemble_eq]; unfold pushTermination; cases t.termination <;> rfl

theorem assemble_termination (t : DecoderTab) : (assemble t).termination = t.termination := by
  rw [assemble_eq]; unfold pushTermination
  cases h : t.termination <;> simp [h]

theorem assemble_decoders (t : DecoderTab) :
    (assemble t).stack.decoders = stages t.items ++ t.termination.toList := by
  rw [assemble_eq]; unfold pushTermination
  cases h : t.termination <;>
    simp [h, loopStack_decoders, DecoderStack.clear, DecoderStack.push]

theorem assemble_bps (t : DecoderTab) : (assemble t).stack.bps = t.stack.bps := by
  rw [assemble_eq]; unfold pushTermination
  cases h : t.termination <;>
    simp [h, loopStack_bps, DecoderStack.clear, DecoderStack.push]

theorem assemble_trace (t : DecoderTab) :
    (assemble t).trace =
      t.trace ++ Event.stackClear :: loopTrace 0 t.items ++
        t.termination.toList.map (fun d => Event.stackPush d.id) := by
  rw [assemble_eq]; unfold pushTermination
  cases h : t.termination <;> simp [h]

theorem assemble_frame (t : DecoderTab) :
    (assemble t).ready = t.ready ∧ (assemble t).enabled = t.enabled ∧
      (assemble t).subWindows = t.subWindows ∧ (assemble t).toggleChecked = t.toggleChecked ∧
      (assemble t).throttle = t.throttle := by
  rw [assemble_eq]; unfold pushTermination
  cases h : t.termination <;> simp [h]

/-! ## Closed forms of the second loop of `rebuildStack` -/

theorem markTrace_mem (term : Option Nat) (ud : List (Nat × Nat)) (fs : List Decoder) :
    ∀ e ∈ markTrace term ud fs, ∃ j, e = Event.setFailed j true := by
  induction fs with
  | nil => intro e h; simp [markTrace] at h
  | cons f rest ih =>
    intro e h
    unfold markTrace at h
    split at h
    · split at h
      · rcases List.mem_cons.1 h with h | h
        · exact ⟨_, h⟩
        · exact ih e h
      · exact ih e h
    · exact ih e h

theorem markFailed_frame (fs : List Decoder) :
    ∀ t : DecoderTab,
      markFailed fs t =
        { t with
          items := (markFailed fs t).items
          trace := t.trace ++ markTrace (t.termination.map (fun d => d.id)) t.userData fs } := by
  induction fs with
  | nil => intro t; simp [markFailed, markTrace]
  | cons f rest ih =>
    intro t
    unfold markFailed markTrace
    by_cases hc : some f.id ≠ t.termination.map (fun d => d.id)
    · rw [if_pos hc, if_pos hc]
      cases hl : t.userData.lookup f.id with
      | none =>
        show markFailed rest t = _
        rw [ih t]
      | some idx =>
        show markFailed rest _ = _
        rw [ih]
        simp
    · rw [if_neg hc, if_neg hc]
      rw [ih t]

theorem mem_stages_ids {items : List LayerItem} {d : Nat}
    (h : d ∈ (stages items).map (fun x => x.id)) :
    ∃ (j : Nat) (item : LayerItem) (o : DecoderObjects),
      items[j]? = some item ∧ item.data = some o ∧ o.decoder.id = d := by
  simp only [stages, List.mem_map, List.mem_filterMap] at h
  obtain ⟨dec, ⟨item, hmem, hmap⟩, hid⟩ := h
  obtain ⟨j, hj⟩ := List.mem_iff_getElem?.1 hmem
  cases hd : item.data with
  | none => simp [hd] at hmap
  | some o =>
    simp only [hd, Option.map_some', Option.some.injEq] at hmap
    exact ⟨j, item, o, hj, hd, by rw [hmap]; exact hid⟩

theorem stages_ids_of_row {items : List LayerItem} {j : Nat} {item : LayerItem}
    {o : DecoderObjects} (hj : items[j]? = some item) (ho : item.data = some o) :
    o.decoder.id ∈ (stages items).map (fun x => x.id) := by
  simp only [stages, List.mem_map, List.mem_filterMap]
  exact ⟨o.decoder, ⟨item, List.mem_iff_getElem?.2 ⟨j, hj⟩, by simp [ho]⟩, rfl⟩

theorem flag_data (bad : Nat → Bool) (item : LayerItem) : (flag bad item).data = item.data := by
  unfold flag
  split
  · split <;> rfl
  · rfl

theorem stages_flag (bad : Nat → Bool) (rows : List LayerItem) :
    stages (rows.map (flag bad)) = stages rows := by
  simp only [stages, List.filterMap_map]
  congr 1
  funext item
  simp [flag_data]

theorem backrefs_flag {items : List LayerItem} {ud : List (Nat × Nat)} (bad : Nat → Bool)
    (h : Backrefs items ud) : Backrefs (items.map (flag bad)) ud := by
  intro j item o hj ho
  rw [List.getElem?_map] at hj
  cases hi : items[j]? with
  | none => simp [hi] at hj
  | some it =>
    simp only [hi, Option.map_some', Option.some.injEq] at hj
    subst hj
    rw [flag_data] at ho
    exact h j it o hi ho

theorem flag_flag (p q : Nat → Bool) (item : LayerItem) :
    flag q (flag p item) = flag (fun d => p d || q d) item := by
  cases hd : item.data with
  | none => simp [flag, hd]
  | some o =>
    cases hp : p o.decoder.id <;> cases hq : q o.decoder.id <;> simp [flag, hd, hp, hq]

theorem setFailedAt_eq_map {items : List LayerItem} {ud : List (Nat × Nat)} {d idx : Nat}
    (hb : Backrefs items ud) (hl : ud.lookup d = some idx)
    (hd : d ∈ (stages items).map (fun x => x.id)) :
    setFailedAt items idx true = items.map (flag (fun x => x == d)) := by
  obtain ⟨j, item, o, hj, ho, hid⟩ := mem_stages_ids hd
  have hji : j = idx := by
    have := hb j item o hj ho
    rw [hid, hl] at this
    exact (Option.some.inj this).symm
  subst hji
  unfold setFailedAt
  rw [hj]
  apply List.ext_getElem?
  intro n
  rw [List.getElem?_map]
  by_cases hn : j = n
  · subst hn
    have hlt : j < items.length := by
      rcases List.getElem?_eq_some_iff.1 hj with ⟨hlt, _⟩
      exact hlt
    rw [List.getElem?_set_self hlt, hj]
    simp [flag, ho, hid]
  · rw [List.getElem?_set_ne hn]
    cases hi : items[n]? with
    | none => rfl
    | some it =>
      simp only [Option.map_some', Option.some.injEq]
      cases hdn : it.data with
      | none => simp [flag, hdn]
      | some o2 =>
        have hne : (o2.decoder.id == d) = false := by
          cases hbe : (o2.decoder.id == d) with
          | false => rfl
          | true =>
            exfalso
            have heq : o2.decoder.id = d := by simpa using hbe
            have := hb n it o2 hi hdn
            rw [heq, hl] at this
            exact hn (Option.some.inj this)
        simp [flag, hdn, hne]

theorem markFailed_items (fs : List Decoder) :
    ∀ t : DecoderTab, Backrefs t.items t.userData →
      (∀ f ∈ fs, some f.id ≠ t.termination.map (fun d => d.id) →
        f.id ∈ (stages t.items).map (fun x => x.id)) →
      (markFailed fs t).items =
        t.items.map (flag (fun d =>
          decide (d ∈ fs.map (fun x => x.id)) &&
            decide (some d ≠ t.termination.map (fun x => x.id)))) := by
  induction fs with
  | nil =>
    intro t _ _
    simp only [markFailed, List.map_nil, List.not_mem_nil, decide_False, Bool.false_and]
    have : flag (fun _ => false) = id := by
      funext item
      cases hd : item.data <;> simp [flag, hd]
    rw [this, List.map_id]
  | cons f rest ih =>
    intro t hb hsub
    unfold markFailed
    by_cases hc : some f.id ≠ t.termination.map (fun d => d.id)
    · rw [if_pos hc]
      have hmem := hsub f (List.mem_cons_self _ _) hc
      obtain ⟨j, item, o, hj, ho, hid⟩ := mem_stages_ids hmem
      have hl : t.userData.lookup f.id = some j := by
        rw [← hid]; exact hb j item o hj ho
      rw [hl]
      show (markFailed rest _).items = _
      have hset := setFailedAt_eq_map hb hl hmem
      rw [ih]
      · simp only [hset, List.map_map]
        apply List.map_congr_left
        intro it _
        simp only [Function.comp, flag_flag]
        congr 1
        funext d
        by_cases hdf : d = f.id
        · subst hdf
          simp [hc]
        · simp [hdf]
      · show Backrefs (setFailedAt t.items j true) t.userData
        rw [hset]; exact backrefs_flag _ hb
      · intro g hg hgc
        show g.id ∈ (stages (setFailedAt t.items j true)).map (fun x => x.id)
        rw [hset, stages_flag]
        exact hsub g (List.mem_cons_of_mem _ hg) hgc
    · rw [if_neg hc]
      rw [ih t hb (fun g hg hgc => hsub g (List.mem_cons_of_mem _ hg) hgc)]
      apply List.map_congr_left
      intro it _
      congr 1
      funext d
      by_cases hdf : d = f.id
      · rw [hdf]
        have : some f.id = t.termination.map (fun x => x.id) := not_not.1 hc
        simp [this]
      · simp [hdf]

/-! ## The validation pass -/

theorem acceptsAt_cons_succ (bps : Nat) (d : Decoder) (ds : List Decoder) (j : Nat) :
    acceptsAt bps (d :: ds) (j + 1) = acceptsAt d.getOutputBps ds j := by
  cases j with
  | zero => simp [acceptsAt, offered]
  | succ j =>
    simp only [acceptsAt, offered, List.getElem?_cons_succ]
    cases h1 : ds[j + 1]? with
    | none => rfl
    | some d1 =>
      have hlt : j < ds.length := by
        have := (List.getElem?_eq_some_iff.1 h1).1
        omega
      rw [List.getElem?_eq_getElem hlt]

theorem connectFrom_first_reject (ds : List Decoder) :
    ∀ (bps k : Nat), (∀ j, j < k → acceptsAt bps ds j = true) → acceptsAt bps ds k = false →
      k < ds.length → DecoderStack.connectFrom bps ds = (false, ds.drop k) := by
  induction ds with
  | nil => intro bps k _ _ hk; simp at hk
  | cons d rest ih =>
    intro bps k hacc hrej hk
    cases k with
    | zero =>
      have : d.setInputBps bps = false := by simpa [acceptsAt, offered] using hrej
      simp [DecoderStack.connectFrom, this]
    | succ k =>
      have h0 : d.setInputBps bps = true := by
        simpa [acceptsAt, offered] using hacc 0 (Nat.succ_pos k)
      simp only [DecoderStack.connectFrom, h0, if_true, List.drop_succ_cons]
      apply ih
      · intro j hj
        rw [← acceptsAt_cons_succ bps d rest j]
        exact hacc (j + 1) (Nat.succ_lt_succ hj)
      · rw [← acceptsAt_cons_succ bps d rest k]; exact hrej
      · simpa using hk

theorem connectFrom_all_accept (ds : List Decoder) :
    ∀ (bps : Nat), (∀ j, j < ds.length → acceptsAt bps ds j = true) →
      DecoderStack.connectFrom bps ds = (true, []) := by
  induction ds with
  | nil => intro bps _; rfl
  | cons d rest ih =>
    intro bps hacc
    have h0 : d.setInputBps bps = true := by
      simpa [acceptsAt, offered] using hacc 0 (by simp)
    simp only [DecoderStack.connectFrom, h0, if_true]
    apply ih
    intro j hj
    rw [← acceptsAt_cons_succ bps d rest j]
    exact hacc (j + 1) (by simpa using hj)

theorem connectFrom_failed_mem (ds : List Decoder) :
    ∀ (bps : Nat) (f : Decoder), f ∈ (DecoderStack.connectFrom bps ds).2 → f ∈ ds := by
  induction ds with
  | nil => intro bps f h; simp [DecoderStack.connectFrom] at h
  | cons d rest ih =>
    intro bps f h
    unfold DecoderStack.connectFrom at h
    split at h
    · exact List.mem_cons_of_mem _ (ih _ _ h)
    · exact h

theorem connectFrom_ok_failed (ds : List Decoder) :
    ∀ (bps : Nat), (DecoderStack.connectFrom bps ds).1 = true →
      (DecoderStack.connectFrom bps ds).2 = [] := by
  induction ds with
  | nil => intro bps _; rfl
  | cons d rest ih =>
    intro bps h
    unfold DecoderStack.connectFrom at h ⊢
    split
    · rename_i hd
      rw [if_pos hd] at h
      exact ih _ h
    · rename_i hd
      rw [if_neg hd] at h
      simp at h

/-! ## Closed form of `rebuildStack` -/

theorem markFailed_items_indep (fs : List Decoder) :
    ∀ t u : DecoderTab, t.items = u.items → t.userData = u.userData →
      t.termination = u.termination → (markFailed fs t).items = (markFailed fs u).items := by
  induction fs with
  | nil => intro t u h _ _; simpa [markFailed] using h
  | cons f rest ih =>
    intro t u hi hu ht
    unfold markFailed
    rw [ht, hu]
    split
    · cases hl : u.userData.lookup f.id with
      | none => exact ih t u hi hu ht
      | some idx =>
        apply ih
        · show setFailedAt t.items idx true = setFailedAt u.items idx true
          rw [hi]
        · rfl
        · rfl
    · exact ih t u hi hu ht

theorem rebuildStack_eq (t : DecoderTab) :
    rebuildStack t =
      { assemble t with
        ready := (assemble t).stack.connect.1
        stack := (assemble t).stack.connected
        items :=
          if (assemble t).stack.connect.1 then (assemble t).items
          else (markFailed (assemble t).stack.connect.2 (assemble t)).items
        trace := (assemble t).trace ++ Event.stackConnect (assemble t).stack.connect.1 ::
          ((if (assemble t).stack.connect.1 then []
            else markTrace ((assemble t).termination.map (fun d => d.id)) (assemble t).userData
              (assemble t).stack.connect.2) ++ [Event.changed]) } := by
  unfold rebuildStack
  cases h : (assemble t).stack.connect.1 with
  | true => simp [h]
  | false =>
    simp only [h, Bool.not_false, if_true]
    rw [markFailed_frame]
    simp only [Bool.false_eq_true, if_false]
    simp
    exact markFailed_items_indep _ _ _ rfl rfl rfl

theorem assemble_connect (t : DecoderTab) :
    (assemble t).stack.connect =
      DecoderStack.connectFrom t.stack.bps (stages t.items ++ t.termination.toList) := by
  unfold DecoderStack.connect
  rw [assemble_bps, assemble_decoders]

theorem rebuildStack_ready (t : DecoderTab) :
    (rebuildStack t).ready = (assemble t).stack.connect.1 := by
  rw [rebuildStack_eq]

theorem rebuildStack_decoders (t : DecoderTab) :
    (rebuildStack t).stack.decoders = stages t.items ++ t.termination.toList := by
  rw [rebuildStack_eq]
  simp [DecoderStack.connected, assemble_decoders]

theorem rebuildStack_bps (t : DecoderTab) : (rebuildStack t).stack.bps = t.stack.bps := by
  rw [rebuildStack_eq]
  simp [DecoderStack.connected, assemble_bps]

theorem rebuildStack_state (t : DecoderTab) :
    (rebuildStack t).stack.state =
      if (assemble t).stack.connect.1 then StackState.CONNECTED else StackState.DISCONNECTED := by
  rw [rebuildStack_eq]
  simp [DecoderStack.connected]

theorem rebuildStack_termination (t : DecoderTab) :
    (rebuildStack t).termination = t.termination := by
  rw [rebuildStack_eq]
  simp [assemble_termination]

theorem rebuildStack_frame (t : DecoderTab) :
    (rebuildStack t).enabled = t.enabled ∧ (rebuildStack t).subWindows = t.subWindows ∧
      (rebuildStack t).toggleChecked = t.toggleChecked ∧ (rebuildStack t).throttle = t.throttle := by
  rw [rebuildStack_eq]
  have h := assemble_frame t
  simp [h]

theorem rebuildStack_trace (t : DecoderTab) :
    (rebuildStack t).trace =
      t.trace ++ (Event.stackClear :: loopTrace 0 t.items ++
        t.termination.toList.map (fun d => Event.stackPush d.id) ++
        Event.stackConnect (assemble t).stack.connect.1 ::
          ((if (assemble t).stack.connect.1 then []
            else markTrace (t.termination.map (fun d => d.id)) (assemble t).userData
              (assemble t).stack.connect.2) ++ [Event.changed])) := by
  rw [rebuildStack_eq]
  simp [assemble_trace, assemble_termination]

theorem rebuildStack_items_ok (t : DecoderTab) (h : (assemble t).stack.connect.1 = true) :
    (rebuildStack t).items = t.items.map unflag := by
  rw [rebuildStack_eq]
  simp [h, assemble_items]

theorem backrefs_assemble (t : DecoderTab)
    (h : ((stages t.items).map (fun d => d.id)).Nodup) :
    Backrefs (assemble t).items (assemble t).userData := by
  intro j item o hj ho
  rw [assemble_items, List.getElem?_map] at hj
  rw [assemble_userData]
  cases hi : t.items[j]? with
  | none => simp [hi] at hj
  | some it =>
    simp only [hi, Option.map_some', Option.some.injEq] at hj
    subst hj
    have hd : it.data = some o := by
      cases hd : it.data with
      | none => simp [unflag, hd] at ho
      | some o2 => simpa [unflag, hd] using ho
    have := loopUserData_lookup t.items 0 t.userData j it o h hi hd
    simpa using this

theorem unflag_data (item : LayerItem) : (unflag item).data = item.data := by
  cases hd : item.data <;> simp [unflag, hd]

theorem rebuildStack_items (t : DecoderTab)
    (h : ((stages t.items).map (fun d => d.id)).Nodup) :
    (rebuildStack t).items = t.items.map (fun item => flag (flagged t) (unflag item)) := by
  cases hc : (assemble t).stack.connect.1 with
  | true =>
    rw [rebuildStack_items_ok t hc]
    apply List.map_congr_left
    intro item _
    have : flagged t = fun _ => false := by
      funext d; simp [flagged, hc]
    rw [this]
    cases hd : (unflag item).data <;> simp [flag, hd]
  | false =>
    rw [rebuildStack_eq]
    simp only [hc, Bool.false_eq_true, if_false]
    rw [markFailed_items _ _ (backrefs_assemble t h)]
    · rw [assemble_items, List.map_map, assemble_termination]
      apply List.map_congr_left
      intro item _
      simp only [Function.comp]
      congr 1
      funext d
      simp [flagged, hc]
    · intro f hf hne
      rw [assemble_connect] at hf
      have hmem := connectFrom_failed_mem _ _ _ hf
      rw [assemble_items, stages_unflag]
      rw [assemble_termination] at hne
      rcases List.mem_append.1 hmem with hm | hm
      · exact List.mem_map_of_mem _ hm
      · exfalso
        cases ht : t.termination with
        | none => simp [ht] at hm
        | some term =>
          simp only [ht, Option.toList_some, List.mem_singleton] at hm
          rw [ht, hm] at hne
          exact hne rfl

theorem pushedIds_loopTrace (rows : List LayerItem) :
    ∀ i : Nat, pushedIds (loopTrace i rows) = (stages rows).map (fun d => d.id) := by
  induction rows with
  | nil => intro i; rfl
  | cons item rest ih =>
    intro i
    cases hd : item.data with
    | none =>
      simp only [loopTrace, hd, stages, List.filterMap_cons, Option.map_none']
      exact ih (i + 1)
    | some o =>
      have := ih (i + 1)
      simp only [pushedIds, stages] at this
      simp [loopTrace, hd, stages, pushedIds, this]

theorem wellFormed_nodup {t : DecoderTab} (h : t.WellFormed) :
    ((stages t.items).map (fun d => d.id)).Nodup :=
  (List.nodup_append.1 h).1

theorem wellFormed_ne_termination {t : DecoderTab} (h : t.WellFormed) {j : Nat}
    {item : LayerItem} {o : DecoderObjects} (hj : t.items[j]? = some item)
    (ho : item.data = some o) : some o.decoder.id ≠ t.termination.map (fun x => x.id) := by
  intro heq
  have hdis := (List.nodup_append.1 h).2.2
  have h1 := stages_ids_of_row hj ho
  cases ht : t.termination with
  | none => simp [ht] at heq
  | some term =>
    simp only [ht, Option.map_some', Option.some.injEq] at heq
    have h2 : o.decoder.id ∈ t.termination.toList.map (fun d => d.id) := by
      simp [ht, heq]
    exact hdis h1 h2

theorem rebuildStack_row (t : DecoderTab) (hwf : t.WellFormed) (j : Nat) (item : LayerItem)
    (o : DecoderObjects) (hj : t.items[j]? = some item) (ho : item.data = some o) :
    ∃ item', (rebuildStack t).items[j]? = some item' ∧ item'.data = some o ∧
      item'.name = item.name ∧ item'.description = item.description ∧
      item'.failed = (!(assemble t).stack.connect.1 &&
        decide (o.decoder.id ∈ (assemble t).stack.connect.2.map (fun x => x.id))) := by
  refine ⟨flag (flagged t) (unflag item), ?_, ?_, ?_, ?_, ?_⟩
  · rw [rebuildStack_items t (wellFormed_nodup hwf), List.getElem?_map, hj]; rfl
  · rw [flag_data, unflag_data, ho]
  · cases hf : flagged t o.decoder.id <;> simp [flag, unflag, ho, hf]
  · cases hf : flagged t o.decoder.id <;> simp [flag, unflag, ho, hf]
  · have hne := wellFormed_ne_termination hwf hj ho
    have hfl : flagged t o.decoder.id = (!(assemble t).stack.connect.1 &&
        decide (o.decoder.id ∈ (assemble t).stack.connect.2.map (fun x => x.id))) := by
      simp [flagged, hne]
    rw [← hfl]
    cases hf : flagged t o.decoder.id <;> simp [flag, unflag, ho, hf]

theorem rebuildStack_whiteout (t : DecoderTab) (hwf : t.WellFormed) (j : Nat) (item : LayerItem)
    (hj : t.items[j]? = some item) (ho : item.data = none) :
    (rebuildStack t).items[j]? = some item := by
  rw [rebuildStack_items t (wellFormed_nodup hwf), List.getElem?_map, hj]
  simp [flag, unflag, ho]

theorem setFailedAt_data (items : List LayerItem) (idx : Nat) (b : Bool) :
    (setFailedAt items idx b).map (fun it => it.data) = items.map (fun it => it.data) := by
  unfold setFailedAt
  cases hi : items[idx]? with
  | none => rfl
  | some item =>
    apply List.ext_getElem?
    intro n
    simp only [List.getElem?_map]
    by_cases hn : idx = n
    · subst hn
      have hlt : idx < items.length := (List.getElem?_eq_some_iff.1 hi).1
      rw [List.getElem?_set_self hlt, hi]
      rfl
    · rw [List.getElem?_set_ne hn]

theorem markFailed_data (fs : List Decoder) :
    ∀ t : DecoderTab,
      (markFailed fs t).items.map (fun it => it.data) = t.items.map (fun it => it.data) := by
  induction fs with
  | nil => intro t; rfl
  | cons f rest ih =>
    intro t
    unfold markFailed
    split
    · cases hl : t.userData.lookup f.id with
      | none => exact ih t
      | some idx =>
        show (markFailed rest _).items.map _ = _
        rw [ih]
        exact setFailedAt_data _ _ _
    · exact ih t

theorem rebuildStack_data (t : DecoderTab) :
    (rebuildStack t).items.map (fun it => it.data) = t.items.map (fun it => it.data) := by
  have hu : (t.items.map unflag).map (fun it => it.data) = t.items.map (fun it => it.data) := by
    rw [List.map_map]
    apply List.map_congr_left
    intro it _
    exact unflag_data it
  rw [rebuildStack_eq]
  cases hc : (assemble t).stack.connect.1 with
  | true => simpa [assemble_items] using hu
  | false =>
    simp only [Bool.false_eq_true, if_false]
    rw [markFailed_data, assemble_items]
    exact hu

theorem rebuildStack_length (t : DecoderTab) :
    (rebuildStack t).items.length = t.items.length := by
  have := congrArg List.length (rebuildStack_data t)
  simpa using this


end DecoderTab

open DecoderTab

/-- C1: for every entry list and every installed termination stage, the
stages that `rebuildStack` pushes onto the freshly cleared stack are exactly
the decoders of the rows that are not whiteouts, in row order, followed by
the termination stage as the single last element: this is the content of the
stack afterwards, and the calls recorded by the rebuild start with the
`clear()` and push exactly these stages. -/
theorem rebuildStack_pushes (t : DecoderTab) (term : Decoder) :
    (rebuildStack { t with termination := some term }).stack.decoders =
        stages t.items ++ [term] ∧
      ((rebuildStack { t with termination := some term }).trace.drop t.trace.length).head? =
        some Event.stackClear ∧
      pushedIds ((rebuildStack { t with termination := some term }).trace.drop t.trace.length) =
        (stages t.items ++ [term]).map (fun d => d.id) := by
  refine ⟨?_, ?_, ?_⟩
  · rw [rebuildStack_decoders]; rfl
  · rw [rebuildStack_trace]
    simp
  · rw [rebuildStack_trace]
    have hm : ∀ fs ud, pushedIds (markTrace (some term.id) ud fs) = [] := by
      intro fs ud
      unfold pushedIds
      rw [List.filterMap_eq_nil_iff]
      intro e he
      obtain ⟨j, rfl⟩ := markTrace_mem _ _ _ e he
      rfl
    have hl := pushedIds_loopTrace t.items 0
    simp only [pushedIds] at hl hm
    simp only [List.drop_left, pushedIds, List.filterMap_append, List.filterMap_cons, hl]
    cases hc : (assemble { t with termination := some term }).stack.connect.1 <;>
      simp [hm]

/-- C2: after `rebuildStack` on a well-formed tab the list has as many rows as
before; every row with a payload keeps it and is flagged failed if and only
if `connect()` returned false and the row's decoder is in the failed list
that `connect()` reported; a whiteout row is left as it was, so the
termination stage in the failed list flags no row. -/
theorem rebuildStack_failed_iff (t : DecoderTab) (hwf : t.WellFormed) :
    (rebuildStack t).items.length = t.items.length ∧
      (∀ (j : Nat) (item : LayerItem) (o : DecoderObjects),
        t.items[j]? = some item → item.data = some o →
        ∃ item', (rebuildStack t).items[j]? = some item' ∧ item'.data = some o ∧
          (item'.failed = true ↔
            ((assemble t).stack.connect.1 = false ∧
              o.decoder.id ∈ (assemble t).stack.connect.2.map (fun d => d.id)))) ∧
      (∀ (j : Nat) (item : LayerItem),
        t.items[j]? = some item → item.data = none →
        (rebuildStack t).items[j]? = some item) := by
  refine ⟨rebuildStack_length t, ?_, ?_⟩
  · intro j item o hj ho
    obtain ⟨item', h1, h2, _, _, h5⟩ := rebuildStack_row t hwf j item o hj ho
    refine ⟨item', h1, h2, ?_⟩
    rw [h5]
    cases hc : (assemble t).stack.connect.1 <;> simp
  · intro j item hj ho
    exact rebuildStack_whiteout t hwf j item hj ho

/-- Witness of C2 on the swapped scenario [B, A, C]. -/
theorem rebuildStack_failed_iff_witness :
    tabBAC.WellFormed ∧
      ((rebuildStack tabBAC).items.length = tabBAC.items.length ∧
      (∀ (j : Nat) (item : LayerItem) (o : DecoderObjects),
        tabBAC.items[j]? = some item → item.data = some o →
        ∃ item', (rebuildStack tabBAC).items[j]? = some item' ∧ item'.data = some o ∧
          (item'.failed = true ↔
            ((assemble tabBAC).stack.connect.1 = false ∧
              o.decoder.id ∈ (assemble tabBAC).stack.connect.2.map (fun d => d.id)))) ∧
      (∀ (j : Nat) (item : LayerItem),
        tabBAC.items[j]? = some item → item.data = none →
        (rebuildStack tabBAC).items[j]? = some item)) :=
  ⟨by decide, rebuildStack_failed_iff tabBAC (by decide)⟩

/-- C3: validation is left-to-right without backtracking.  On a well-formed
tab whose chain (the stages of the rows followed by the termination stage)
has stage `k` as the first stage rejecting the width offered to it,
`connect()` returns false with stage `k` and every later stage (the
termination stage included) as its failed list, the tab is not ready and the
stack is DISCONNECTED, no stage before `k` is in the failed list, and a row
with a payload is flagged failed exactly when its decoder is stage `k` or a
later one. -/
theorem rebuildStack_first_reject (t : DecoderTab) (term : Decoder) (k : Nat)
    (hwf : t.WellFormed) (hterm : t.termination = some term)
    (hk : k < (stages t.items ++ [term]).length)
    (hacc : ∀ j, j < k → acceptsAt t.stack.bps (stages t.items ++ [term]) j = true)
    (hrej : acceptsAt t.stack.bps (stages t.items ++ [term]) k = false) :
    (assemble t).stack.connect = (false, (stages t.items ++ [term]).drop k) ∧
      (rebuildStack t).ready = false ∧
      (rebuildStack t).stack.state = StackState.DISCONNECTED ∧
      term ∈ (stages t.items ++ [term]).drop k ∧
      (∀ d ∈ (stages t.items ++ [term]).take k,
        d.id ∉ ((stages t.items ++ [term]).drop k).map (fun x => x.id)) ∧
      (∀ (j : Nat) (item : LayerItem) (o : DecoderObjects),
        t.items[j]? = some item → item.data = some o →
        ∃ item', (rebuildStack t).items[j]? = some item' ∧
          (item'.failed = true ↔
            o.decoder.id ∈ ((stages t.items ++ [term]).drop k).map (fun x => x.id))) := by
  have hconn : (assemble t).stack.connect = (false, (stages t.items ++ [term]).drop k) := by
    rw [assemble_connect, hterm]
    exact connectFrom_first_reject _ _ _ hacc hrej hk
  refine ⟨hconn, ?_, ?_, ?_, ?_, ?_⟩
  · rw [rebuildStack_ready, hconn]
  · rw [rebuildStack_state, hconn]; rfl
  · have hle : k ≤ (stages t.items).length := by
      simp only [List.length_append, List.length_singleton] at hk
      omega
    rw [List.drop_append_of_le_length hle]
    simp
  · intro d hd hmem
    have hnd : ((stages t.items ++ [term]).map (fun x => x.id)).Nodup := by
      have := hwf
      unfold WellFormed at this
      rw [hterm] at this
      simpa using this
    rw [← List.take_append_drop k (stages t.items ++ [term]), List.map_append] at hnd
    exact (List.nodup_append.1 hnd).2.2 (List.mem_map_of_mem _ hd) hmem
  · intro j item o hj ho
    obtain ⟨item', h1, _, _, _, h5⟩ := rebuildStack_row t hwf j item o hj ho
    refine ⟨item', h1, ?_⟩
    rw [h5, hconn]
    simp

/-- Witness of C3: the swapped scenario [B, A, C] with global input width 1
and first rejecting stage A at position 1. -/
theorem rebuildStack_first_reject_witness :
    (assemble tabBAC).stack.connect =
        (false, [stageA, stageC, InspectorUITermination 99]) ∧
      (rebuildStack tabBAC).ready = false ∧
      (rebuildStack tabBAC).stack.state = StackState.DISCONNECTED ∧
      (rebuildStack tabBAC).items.map (fun it => it.failed) = [false, true, true] :=
  have h := rebuildStack_first_reject tabBAC (InspectorUITermination 99) 1
    (by decide) rfl (by decide) (by decide) (by decide)
  ⟨h.1, h.2.1, h.2.2.1, by decide⟩

/-- C4: when every stage of the chain (the stages of the rows followed by the
termination stage) accepts the width offered to it, `connect()` returns true
with an empty failed list, so `rebuildStack` leaves the tab ready and the
stack CONNECTED; and the inspector's termination stage accepts whatever
width the last stage of any chain offers. -/
theorem rebuildStack_compatible (t : DecoderTab) (term : Decoder)
    (hterm : t.termination = some term)
    (hacc : ∀ j, j < (stages t.items ++ [term]).length →
      acceptsAt t.stack.bps (stages t.items ++ [term]) j = true) :
    ((assemble t).stack.connect = (true, []) ∧
      (rebuildStack t).isReady = true ∧
      (rebuildStack t).stack.state = StackState.CONNECTED) ∧
      (∀ (id w : Nat), (InspectorUITermination id).setInputBps w = true) ∧
      (∀ (id bps : Nat) (ds : List Decoder),
        acceptsAt bps (ds ++ [InspectorUITermination id]) ds.length = true) := by
  have hconn : (assemble t).stack.connect = (true, []) := by
    rw [assemble_connect, hterm]
    exact connectFrom_all_accept _ _ hacc
  refine ⟨⟨hconn, ?_, ?_⟩, ?_, ?_⟩
  · unfold isReady; rw [rebuildStack_ready, hconn]
  · rw [rebuildStack_state, hconn]; rfl
  · intro id w; rfl
  · intro id bps ds
    simp [acceptsAt, InspectorUITermination]

/-- Witness of C4: the scenario [A, B, C] with global input width 1. -/
theorem rebuildStack_compatible_witness :
    (∀ j, j < (stages tabABC.items ++ [InspectorUITermination 99]).length →
      acceptsAt tabABC.stack.bps (stages tabABC.items ++ [InspectorUITermination 99]) j = true) ∧
      (assemble tabABC).stack.connect = (true, []) ∧
      (rebuildStack tabABC).isReady = true ∧
      (rebuildStack tabABC).stack.state = StackState.CONNECTED :=
  ⟨by decide, (rebuildStack_compatible tabABC (InspectorUITermination 99) rfl (by decide)).1⟩

theorem getItem_natCast (t : DecoderTab) (i : Nat) (item : LayerItem)
    (hi : t.items[i]? = some item) : t.getItem (i : Int) = Except.ok item := by
  unfold getItem
  have h0 : ¬ ((i : Int) < 0) := by omega
  rw [if_neg h0, Int.toNat_ofNat, hi]

theorem onRemoveDecoder_eq (t : DecoderTab) (i : Nat) (item : LayerItem) (o : DecoderObjects)
    (hi : t.items[i]? = some item) (ho : item.data = some o) :
    onRemoveDecoder t (i : Int) =
      Except.ok
        (rebuildStack
          { t with
            subWindows :=
              (match o.ui with
               | some w => t.subWindows.erase w
               | none => t.subWindows)
            items := t.items.set i { item with data := none }
            userData := deleteObjects t.userData (some o)
            trace := t.trace ++ removeTrace t o }) := by
  unfold onRemoveDecoder
  rw [getItem_natCast t i item hi]
  simp only [ho, Int.toNat_ofNat]
  cases hu : o.ui with
  | none => simp [removeTrace, hu]
  | some w => simp [removeTrace, hu]

/-- Counterexample to C5 as stated: in the swapped scenario [B, A, C] the
rebuild flags A and C; removing the failed stage A leaves the compatible
chain [B, C], the tab becomes ready, the rows of B and C are un-flagged, but
the whiteout slot of A is still flagged failed. -/
theorem onRemoveDecoder_whiteout_keeps_flag :
    (rebuildStack tabBAC).items.map (fun it => it.failed) = [false, true, true] ∧
      (onRemoveDecoder (rebuildStack tabBAC) 1).toOption.map
        (fun t => (t.ready, t.items.map (fun it => (it.data.isSome, it.failed)))) =
        some (true, [(true, false), (false, true), (true, false)]) := by
  decide

/-- C5 as amended: removing the stage of row `i` and rebuilding, when the
remaining chain is fully compatible, leaves the tab ready and the stack
CONNECTED and every row that still has a payload un-flagged; row `i` itself
becomes a whiteout that keeps the failed flag the row had before. -/
theorem onRemoveDecoder_clears_flags (t : DecoderTab) (i : Nat) (item : LayerItem)
    (o : DecoderObjects) (term : Decoder)
    (hi : t.items[i]? = some item) (ho : item.data = some o)
    (hterm : t.termination = some term)
    (hacc : ∀ j, j < (stages (t.items.set i { item with data := none }) ++ [term]).length →
      acceptsAt t.stack.bps (stages (t.items.set i { item with data := none }) ++ [term]) j
        = true) :
    ∃ t', onRemoveDecoder t (i : Int) = Except.ok t' ∧
      t'.ready = true ∧ t'.stack.state = StackState.CONNECTED ∧
      (∀ (j : Nat) (it : LayerItem), t'.items[j]? = some it → it.data ≠ none →
        it.failed = false) ∧
      t'.items[i]? = some { item with data := none } := by
  refine ⟨_, onRemoveDecoder_eq t i item o hi ho, ?_⟩
  generalize hu : ({ t with
      subWindows :=
        (match o.ui with
         | some w => t.subWindows.erase w
         | none => t.subWindows)
      items := t.items.set i { item with data := none }
      userData := deleteObjects t.userData (some o)
      trace := t.trace ++ removeTrace t o } : DecoderTab) = u
  have hitems : u.items = t.items.set i { item with data := none } := by rw [← hu]
  have hterm2 : u.termination = some term := by rw [← hu]; exact hterm
  have hbps : u.stack.bps = t.stack.bps := by rw [← hu]
  have hconn : (assemble u).stack.connect = (true, []) := by
    rw [assemble_connect, hterm2, hitems, hbps]
    exact connectFrom_all_accept _ _ hacc
  have hok : (assemble u).stack.connect.1 = true := by rw [hconn]
  have hlt : i < t.items.length := (List.getElem?_eq_some_iff.1 hi).1
  refine ⟨?_, ?_, ?_, ?_⟩
  · rw [rebuildStack_ready, hconn]
  · rw [rebuildStack_state, hconn]; rfl
  · intro j it hj hd
    rw [rebuildStack_items_ok u hok, List.getElem?_map] at hj
    cases hget : u.items[j]? with
    | none => simp [hget] at hj
    | some it0 =>
      simp only [hget, Option.map_some', Option.some.injEq] at hj
      subst hj
      cases hd0 : it0.data with
      | none => exact absurd (by rw [unflag_data, hd0]) hd
      | some o2 => simp [unflag, hd0]
  · rw [rebuildStack_items_ok u hok, List.getElem?_map, hitems, List.getElem?_set_self hlt]
    simp [unflag]

/-- Witness of the amended C5: removing the failed stage A from the rebuilt
swapped scenario [B, A, C]. -/
theorem onRemoveDecoder_clears_flags_witness :
    ∃ t', onRemoveDecoder (rebuildStack tabBAC) ((1 : Nat) : Int) = Except.ok t' ∧
      t'.ready = true ∧ t'.stack.state = StackState.CONNECTED ∧
      (∀ (j : Nat) (it : LayerItem), t'.items[j]? = some it → it.data ≠ none →
        it.failed = false) ∧
      t'.items[1]? = some { name := "", description := "", data := none, failed := true } :=
  onRemoveDecoder_clears_flags (rebuildStack tabBAC) 1
    { name := "", description := "", data := some { decoder := stageA, ui := none },
      failed := true }
    { decoder := stageA, ui := none } (InspectorUITermination 99)
    rfl rfl rfl (by decide)

theorem connectResults_append (a b : List Event) :
    connectResults (a ++ b) = connectResults a ++ connectResults b := by
  simp [connectResults]

theorem connectResults_loopTrace (rows : List LayerItem) (i : Nat) :
    connectResults (loopTrace i rows) = [] := by
  unfold connectResults
  rw [List.filterMap_eq_nil_iff]
  intro e he
  rcases loopTrace_mem rows i e he with ⟨j, rfl⟩ | ⟨d, rfl⟩ <;> rfl

theorem connectResults_markTrace (term : Option Nat) (ud : List (Nat × Nat))
    (fs : List Decoder) : connectResults (markTrace term ud fs) = [] := by
  unfold connectResults
  rw [List.filterMap_eq_nil_iff]
  intro e he
  obtain ⟨j, rfl⟩ := markTrace_mem term ud fs e he
  rfl

theorem run_mem (ds : List Decoder) :
    ∀ (buf : List Symbol) (e : Event), e ∈ DecoderStack.run ds buf →
      ∃ d b, e = Event.work d b := by
  induction ds with
  | nil => intro buf e h; simp [DecoderStack.run] at h
  | cons d rest ih =>
    intro buf e h
    simp only [DecoderStack.run, List.mem_cons] at h
    rcases h with h | h
    · exact ⟨_, _, h⟩
    · exact ih _ _ h

theorem connectResults_run (ds : List Decoder) (buf : List Symbol) :
    connectResults (DecoderStack.run ds buf) = [] := by
  unfold connectResults
  rw [List.filterMap_eq_nil_iff]
  intro e he
  obtain ⟨d, b, rfl⟩ := run_mem ds buf e he
  rfl

theorem rebuildStack_trace_eq (t : DecoderTab) :
    (rebuildStack t).trace = t.trace ++ rebuildTrace t :=
  rebuildStack_trace t

theorem connectResults_rebuildTrace (t : DecoderTab) :
    connectResults (rebuildTrace t) = [(rebuildStack t).ready] := by
  unfold rebuildTrace
  rw [rebuildStack_ready]
  have h1 : connectResults (t.termination.toList.map (fun d => Event.stackPush d.id)) = [] := by
    cases t.termination <;> rfl
  rw [connectResults_append, connectResults_append]
  have h2 : connectResults (Event.stackClear :: loopTrace 0 t.items) = [] := by
    have := connectResults_loopTrace t.items 0
    simp only [connectResults] at this ⊢
    simpa using this
  rw [h1, h2]
  have h3 : ∀ l, connectResults (Event.stackConnect (assemble t).stack.connect.1 :: l) =
      (assemble t).stack.connect.1 :: connectResults l := by
    intro l; simp [connectResults]
  rw [h3, connectResults_append]
  have h4 : connectResults [Event.changed] = [] := rfl
  rw [h4]
  cases hc : (assemble t).stack.connect.1
  · simp [connectResults_markTrace]
  · simp [connectResults]

theorem readyTracks_rebuild (t u : DecoderTab) (pre : List Event)
    (hu : u.trace = t.trace ++ pre) (hpre : connectResults pre = []) :
    ReadyTracks t (rebuildStack u) := by
  refine ⟨pre ++ rebuildTrace u, ?_, ?_⟩
  · rw [rebuildStack_trace_eq, hu, List.append_assoc]
  · rw [connectResults_append, hpre, connectResults_rebuildTrace]
    rfl

theorem readyTracks_refl (t : DecoderTab) : ReadyTracks t t :=
  ⟨[], by simp, rfl⟩

theorem step_readyTracks (t : DecoderTab) (op : Op) (u : DecoderTab)
    (h : step t op = Except.ok u) : ReadyTracks t u := by
  cases op with
  | rebuildStack =>
    simp only [step, Except.ok.injEq] at h
    subst h
    exact readyTracks_rebuild t t [] (by simp) rfl
  | setInputBps bps =>
    simp only [step, Except.ok.injEq] at h
    subst h
    exact readyTracks_rebuild t _ [Event.stackSetBps bps] rfl rfl
  | feed samples =>
    simp only [step, Except.ok.injEq] at h
    subst h
    refine ⟨[Event.stackFeed samples] ++ t.stack.feed samples ++ [Event.stackFlush]
      ++ t.stack.flush, ?_, ?_⟩
    · simp [DecoderTab.feed]
    · have hf : connectResults (t.stack.feed samples) = [] := by
        unfold DecoderStack.feed
        split
        · exact connectResults_run _ _
        · rfl
      simp only [connectResults_append, hf, DecoderStack.flush]
      rfl
  | setThrottleControl control =>
    simp only [step, Except.ok.injEq] at h
    subst h
    exact ⟨[], by simp [setThrottleControl], rfl⟩
  | setTerminationDecoder dec =>
    simp only [step, Except.ok.injEq] at h
    subst h
    exact readyTracks_rebuild t _ [] (by simp) rfl
  | onAddDecoder accepted selected =>
    simp only [step, Except.ok.injEq] at h
    subst h
    unfold onAddDecoder
    cases accepted with
    | false => exact readyTracks_refl t
    | true =>
      cases selected with
      | none => exact readyTracks_refl t
      | some factory =>
        simp only [if_true]
        cases hu : factory.make.ui with
        | none => exact readyTracks_rebuild t _ [] (by simp) rfl
        | some w =>
          exact readyTracks_rebuild t _
            [Event.addSubWindow w, Event.setActiveSubWindow w] rfl rfl
  | onToggleDecoder =>
    simp only [step, Except.ok.injEq] at h
    subst h
    obtain ⟨evs, h1, h2⟩ :=
      readyTracks_rebuild t { t with enabled := t.toggleChecked } [] (by simp) rfl
    refine ⟨evs ++ [Event.toggled], ?_, ?_⟩
    · simp [onToggleDecoder, h1]
    · rw [connectResults_append]
      have : connectResults [Event.toggled] = [] := rfl
      rw [this, List.append_nil]
      exact h2
  | onSelectDecoder i =>
    simp only [step] at h
    unfold onSelectDecoder at h
    split at h
    · split at h
      · cases h
      · split at h
        · cases h
        · split at h
          · split at h
            · simp only [Except.ok.injEq] at h
              subst h
              exact ⟨[Event.setActiveSubWindow _], rfl, rfl⟩
            · simp only [Except.ok.injEq] at h
              subst h
              exact readyTracks_refl t
          · simp only [Except.ok.injEq] at h
            subst h
            exact readyTracks_refl t
    · simp only [Except.ok.injEq] at h
      subst h
      exact readyTracks_refl t
  | onMoveDecoder src dst =>
    simp only [step, Except.ok.injEq] at h
    subst h
    exact readyTracks_rebuild t t [] (by simp) rfl
  | onRemoveDecoder i =>
    simp only [step] at h
    unfold onRemoveDecoder at h
    split at h
    · cases h
    · split at h
      · cases h
      · rename_i item _ objects _
        simp only [Except.ok.injEq] at h
        subst h
        cases hu : objects.ui with
        | none => exact readyTracks_rebuild t _ [] (by simp) rfl
        | some w =>
          cases hf : t.findSubWindow w with
          | none =>
            exact readyTracks_rebuild t _ [Event.removeSubWindow w] (by simp [hf]) rfl
          | some sw =>
            exact readyTracks_rebuild t _
              [Event.removeSubWindow w, Event.closeSubWindow sw] (by simp [hf]) rfl
  | eventFilter isClose child =>
    simp only [step, Except.ok.injEq] at h
    subst h
    unfold eventFilter
    cases isClose with
    | false => exact readyTracks_refl t
    | true =>
      simp only [if_true]
      split
      · split
        · exact readyTracks_rebuild t _ [] (by simp) rfl
        · exact readyTracks_refl t
      · exact readyTracks_refl t

/-- C6: a rebuild whose `connect()` failed leaves the stack DISCONNECTED, and
on a DISCONNECTED stack `DecoderTab::feed`, for every buffer, completes
without fault, makes the two calls `feed` and `flush` on the stack and
nothing else: no stage's `work` is invoked, so nothing reaches the
termination stage and the symbol view behind it. -/
theorem feed_disconnected (t : DecoderTab) (samples : List Symbol) :
    ((rebuildStack t).isReady = false →
        (rebuildStack t).stack.state = StackState.DISCONNECTED) ∧
      (t.stack.state = StackState.DISCONNECTED →
        step t (Op.feed samples) = Except.ok (feed t samples) ∧
        feed t samples =
          { t with trace := t.trace ++ [Event.stackFeed samples, Event.stackFlush] } ∧
        ∀ (d : Nat) (b : List Symbol),
          Event.work d b ∉ (feed t samples).trace.drop t.trace.length) := by
  constructor
  · intro h
    unfold isReady at h
    rw [rebuildStack_ready] at h
    rw [rebuildStack_state, h]
    rfl
  · intro h
    have hf : feed t samples =
        { t with trace := t.trace ++ [Event.stackFeed samples, Event.stackFlush] } := by
      simp [feed, DecoderStack.feed, DecoderStack.flush, h]
    refine ⟨rfl, hf, ?_⟩
    intro d b
    rw [hf]
    simp

/-- Witness of C6: the swapped scenario [B, A, C] after its rebuild, fed
three symbols. -/
theorem feed_disconnected_witness :
    (rebuildStack tabBAC).isReady = false ∧
      (rebuildStack tabBAC).stack.state = StackState.DISCONNECTED ∧
      (feed (rebuildStack tabBAC) [1, 0, 1]).trace.drop (rebuildStack tabBAC).trace.length =
        [Event.stackFeed [1, 0, 1], Event.stackFlush] ∧
      ∀ (d : Nat) (b : List Symbol),
        Event.work d b ∉
          (feed (rebuildStack tabBAC) [1, 0, 1]).trace.drop (rebuildStack tabBAC).trace.length :=
  have h1 := (feed_disconnected tabBAC [1, 0, 1]).1 (by decide)
  have h2 := (feed_disconnected (rebuildStack tabBAC) [1, 0, 1]).2 h1
  ⟨by decide, h1, by decide, h2.2.2⟩

/-- C7: a rebuild calls `connect()` once and `isReady()` afterwards is the
boolean it returned; and for every operation of the tab, `isReady()` after
the operation is the result of the last `connect()` call the operation made,
or what it was before when the operation made none: the flag changes only
through the `connect()` of a rebuild. -/
theorem ready_is_last_connect (t : DecoderTab) (op : Op) (u : DecoderTab)
    (h : step t op = Except.ok u) :
    (rebuildStack t).isReady = (assemble t).stack.connect.1 ∧
      connectResults ((rebuildStack t).trace.drop t.trace.length) =
        [(assemble t).stack.connect.1] ∧
      u.isReady = ((connectResults (u.trace.drop t.trace.length)).getLast?).getD t.isReady := by
  refine ⟨rebuildStack_ready t, ?_, ?_⟩
  · rw [rebuildStack_trace_eq, List.drop_left, connectResults_rebuildTrace, rebuildStack_ready]
  · obtain ⟨evs, h1, h2⟩ := step_readyTracks t op u h
    rw [h1, List.drop_left]
    exact h2

/-- Witness of C7: removing row 1 of the rebuilt swapped scenario, an
operation that rebuilds and turns the flag from false to true. -/
theorem ready_is_last_connect_witness :
    (rebuildStack tabBAC).isReady = false ∧
      ∃ u, step (rebuildStack tabBAC) (Op.onRemoveDecoder 1) = Except.ok u ∧
        u.isReady = true ∧
        u.isReady =
          ((connectResults (u.trace.drop (rebuildStack tabBAC).trace.length)).getLast?).getD
            (rebuildStack tabBAC).isReady :=
  ⟨by decide, _, rfl, by decide,
    (ready_is_last_connect (rebuildStack tabBAC) (Op.onRemoveDecoder 1) _ rfl).2.2⟩

/-- C8: the calls made by one `rebuildStack` end with exactly one emission of
`changed`: everything else the rebuild does, the `connect()` call and the
flagging of the failed rows included, comes before it, whether `connect()`
succeeded or failed. -/
theorem rebuildStack_emits_changed (t : DecoderTab) :
    ∃ pre, (rebuildStack t).trace = t.trace ++ pre ++ [Event.changed] ∧
      Event.changed ∉ pre ∧
      Event.stackConnect (rebuildStack t).ready ∈ pre ∧
      ∀ (j : Nat) (b : Bool),
        Event.setFailed j b ∈ (rebuildStack t).trace.drop t.trace.length →
        Event.setFailed j b ∈ pre := by
  have key : ∀ pre, (rebuildStack t).trace = t.trace ++ pre ++ [Event.changed] →
      ∀ (j : Nat) (b : Bool),
        Event.setFailed j b ∈ (rebuildStack t).trace.drop t.trace.length →
        Event.setFailed j b ∈ pre := by
    intro pre hp j b hmem
    rw [hp, List.append_assoc, List.drop_left] at hmem
    rcases List.mem_append.1 hmem with h | h
    · exact h
    · simp at h
  have h1 : (rebuildStack t).trace = t.trace ++
      (Event.stackClear :: loopTrace 0 t.items ++
        t.termination.toList.map (fun d => Event.stackPush d.id) ++
        Event.stackConnect (assemble t).stack.connect.1 ::
          (if (assemble t).stack.connect.1 then []
            else markTrace (t.termination.map (fun d => d.id)) (assemble t).userData
              (assemble t).stack.connect.2)) ++ [Event.changed] := by
    rw [rebuildStack_trace]; simp
  refine ⟨_, h1, ?_, ?_, key _ h1⟩
  · intro hmem
    simp only [List.mem_append, List.mem_cons, List.mem_map] at hmem
    rcases hmem with ((h | h) | ⟨d, _, h⟩) | h | h
    · cases h
    · rcases loopTrace_mem _ _ _ h with ⟨j, hj⟩ | ⟨d, hd⟩
      · cases hj
      · cases hd
    · cases h
    · cases h
    · split at h
      · simp at h
      · obtain ⟨j, hj⟩ := markTrace_mem _ _ _ _ h
        cases hj
  · rw [rebuildStack_ready]; simp

/-- C9: `setInputBps(bps)` first records `bps` as the stack's global input
width and then rebuilds: the stack keeps that width, the new calls are the
`setBps` followed by those of one rebuild with its single `connect()`, the
ready flag is the result of validating the chain against `bps`, and a row
with a payload is flagged exactly when that validation failed with the
row's decoder in its failed list. -/
theorem setInputBps_reconnects (t : DecoderTab) (bps : Nat) (hwf : t.WellFormed) :
    (setInputBps t bps).stack.bps = bps ∧
      (∃ evs, (setInputBps t bps).trace =
          t.trace ++ Event.stackSetBps bps :: Event.stackClear :: evs ∧
        connectResults evs = [(setInputBps t bps).ready]) ∧
      (setInputBps t bps).ready =
        (DecoderStack.connectFrom bps (stages t.items ++ t.termination.toList)).1 ∧
      (∀ (j : Nat) (item : LayerItem) (o : DecoderObjects),
        t.items[j]? = some item → item.data = some o →
        ∃ item', (setInputBps t bps).items[j]? = some item' ∧ item'.data = some o ∧
          (item'.failed = true ↔
            ((DecoderStack.connectFrom bps (stages t.items ++ t.termination.toList)).1 = false ∧
              o.decoder.id ∈
                (DecoderStack.connectFrom bps
                  (stages t.items ++ t.termination.toList)).2.map (fun d => d.id)))) := by
  have hconn : (assemble
      { t with
        stack := t.stack.setBps bps
        trace := t.trace ++ [Event.stackSetBps bps] }).stack.connect =
      DecoderStack.connectFrom bps (stages t.items ++ t.termination.toList) := by
    rw [assemble_connect]; rfl
  refine ⟨?_, ?_, ?_, ?_⟩
  · unfold setInputBps; rw [rebuildStack_bps]; rfl
  · unfold setInputBps
    have hr := connectResults_rebuildTrace
      { t with
        stack := t.stack.setBps bps
        trace := t.trace ++ [Event.stackSetBps bps] }
    rw [rebuildStack_trace_eq]
    unfold rebuildTrace at hr ⊢
    refine ⟨_, by simp; rfl, ?_⟩
    simpa [connectResults] using hr
  · unfold setInputBps; rw [rebuildStack_ready, hconn]
  · intro j item o hj ho
    obtain ⟨item', h1, h2, _, _, h5⟩ := rebuildStack_row
      { t with
        stack := t.stack.setBps bps
        trace := t.trace ++ [Event.stackSetBps bps] }
      hwf j item o hj ho
    refine ⟨item', h1, h2, ?_⟩
    rw [h5, hconn]
    cases (DecoderStack.connectFrom bps (stages t.items ++ t.termination.toList)).1 <;> simp

/-- Witness of C9: the scenario [A, B, C], connected at width 1, is offered
width 2: the first stage rejects it and every row is flagged. -/
theorem setInputBps_reconnects_witness :
    (rebuildStack tabABC).WellFormed ∧ (rebuildStack tabABC).ready = true ∧
      (setInputBps (rebuildStack tabABC) 2).stack.bps = 2 ∧
      (setInputBps (rebuildStack tabABC) 2).ready = false ∧
      (setInputBps (rebuildStack tabABC) 2).items.map (fun it => it.failed) =
        [true, true, true] :=
  have h := setInputBps_reconnects (rebuildStack tabABC) 2 (by decide)
  ⟨by decide, by decide, h.1, h.2.2.1.trans (by decide), by decide⟩

theorem stages_append (a b : List LayerItem) : stages (a ++ b) = stages a ++ stages b := by
  simp [stages]

theorem split_at_row {items : List LayerItem} {i : Nat} {item : LayerItem}
    (hi : items[i]? = some item) : items = items.take i ++ item :: items.drop (i + 1) := by
  obtain ⟨hlt, hget⟩ := List.getElem?_eq_some_iff.1 hi
  rw [← hget]
  simp

theorem stages_remove {items : List LayerItem} {i : Nat} {item : LayerItem}
    (hi : items[i]? = some item) :
    stages (items.set i { item with data := none }) = stages (items.eraseIdx i) := by
  rw [List.set_eq_take_append_cons_drop, List.eraseIdx_eq_take_drop_succ]
  have hlt : i < items.length := (List.getElem?_eq_some_iff.1 hi).1
  rw [if_pos hlt, stages_append, stages_append]
  simp [stages]

/-- C10: on a well-formed tab, `onRemoveDecoder(i)` for a row `i` with a
payload succeeds and turns that row into a whiteout without compacting the
list: the number of rows is unchanged, every other row keeps its position
and its payload, the rebuilt stack holds the decoders of the other rows with
a payload in their order (followed by the termination stage) and does not
hold the removed decoder. -/
theorem onRemoveDecoder_whiteout (t : DecoderTab) (i : Nat) (item : LayerItem)
    (o : DecoderObjects) (hwf : t.WellFormed)
    (hi : t.items[i]? = some item) (ho : item.data = some o) :
    ∃ t', onRemoveDecoder t (i : Int) = Except.ok t' ∧
      t'.items.length = t.items.length ∧
      (t'.items[i]?).map (fun it => it.data) = some none ∧
      (∀ j : Nat, j ≠ i →
        (t'.items[j]?).map (fun it => it.data) = (t.items[j]?).map (fun it => it.data)) ∧
      t'.stack.decoders = stages (t.items.eraseIdx i) ++ t.termination.toList ∧
      o.decoder.id ∉ t'.stack.decoders.map (fun d => d.id) := by
  refine ⟨_, onRemoveDecoder_eq t i item o hi ho, ?_⟩
  generalize hu : ({ t with
      subWindows :=
        (match o.ui with
         | some w => t.subWindows.erase w
         | none => t.subWindows)
      items := t.items.set i { item with data := none }
      userData := deleteObjects t.userData (some o)
      trace := t.trace ++ removeTrace t o } : DecoderTab) = u
  have hitems : u.items = t.items.set i { item with data := none } := by rw [← hu]
  have hterm : u.termination = t.termination := by rw [← hu]
  have hlt : i < t.items.length := (List.getElem?_eq_some_iff.1 hi).1
  have hdata : ∀ j : Nat, ((rebuildStack u).items[j]?).map (fun it => it.data) =
      ((t.items.set i { item with data := none })[j]?).map (fun it => it.data) := by
    intro j
    have := congrArg (fun l => l[j]?) (rebuildStack_data u)
    simp only [List.getElem?_map] at this
    rw [this, hitems]
  have hdec : (rebuildStack u).stack.decoders =
      stages (t.items.eraseIdx i) ++ t.termination.toList := by
    rw [rebuildStack_decoders, hitems, hterm, stages_remove hi]
  refine ⟨?_, ?_, ?_, hdec, ?_⟩
  · rw [rebuildStack_length, hitems, List.length_set]
  · rw [hdata, List.getElem?_set_self hlt]
    rfl
  · intro j hj
    rw [hdata, List.getElem?_set_ne (Ne.symm hj)]
  · rw [hdec]
    have hnd := hwf
    unfold WellFormed at hnd
    have hsplit := split_at_row hi
    rw [hsplit, stages_append] at hnd
    simp only [stages, List.filterMap_cons, ho, Option.map_some'] at hnd
    rw [List.eraseIdx_eq_take_drop_succ, stages_append]
    simp only [stages, List.map_append, List.map_cons, List.append_assoc,
      List.cons_append] at hnd ⊢
    have h2 := List.nodup_middle.1 hnd
    rw [List.nodup_cons] at h2
    exact h2.1

/-- Witness of C10: removing row 1, the row of stage B, of the rebuilt
scenario [A, B, C]. -/
theorem onRemoveDecoder_whiteout_witness :
    (rebuildStack tabABC).WellFormed ∧
      ∃ t', onRemoveDecoder (rebuildStack tabABC) ((1 : Nat) : Int) = Except.ok t' ∧
        t'.items.length = (rebuildStack tabABC).items.length ∧
        (t'.items[1]?).map (fun it => it.data) = some none ∧
        (∀ j : Nat, j ≠ 1 →
          (t'.items[j]?).map (fun it => it.data) =
            ((rebuildStack tabABC).items[j]?).map (fun it => it.data)) ∧
        t'.stack.decoders =
          stages ((rebuildStack tabABC).items.eraseIdx 1) ++
            (rebuildStack tabABC).termination.toList ∧
        stageB.id ∉ t'.stack.decoders.map (fun d => d.id) :=
  ⟨by decide,
    onRemoveDecoder_whiteout (rebuildStack tabABC) 1
      { name := "", description := "", data := some { decoder := stageB, ui := none },
        failed := false }
      { decoder := stageB, ui := none } (by decide) rfl rfl⟩

theorem connectResults_rebuildStack (t : DecoderTab) :
    connectResults ((rebuildStack t).trace.drop t.trace.length) = [(rebuildStack t).ready] := by
  rw [rebuildStack_trace_eq, List.drop_left, connectResults_rebuildTrace]

theorem rebuildTrace_last (t : DecoderTab) :
    ∃ pre, rebuildTrace t = pre ++ [Event.changed] ∧ Event.toggled ∉ pre := by
  refine ⟨Event.stackClear :: loopTrace 0 t.items ++
    t.termination.toList.map (fun d => Event.stackPush d.id) ++
    Event.stackConnect (assemble t).stack.connect.1 ::
      (if (assemble t).stack.connect.1 then []
        else markTrace (t.termination.map (fun d => d.id)) (assemble t).userData
          (assemble t).stack.connect.2), ?_, ?_⟩
  · unfold rebuildTrace; simp
  · intro hmem
    simp only [List.mem_append, List.mem_cons, List.mem_map] at hmem
    rcases hmem with ((h | h) | ⟨d, _, h⟩) | h | h
    · cases h
    · rcases loopTrace_mem _ _ _ h with ⟨j, hj⟩ | ⟨d, hd⟩
      · cases hj
      · cases hd
    · cases h
    · cases h
    · split at h
      · simp at h
      · obtain ⟨j, hj⟩ := markTrace_mem _ _ _ _ h
        cases hj

/-- Counterexample to C11 as stated: with the toggle button unchecked and the
flag false, `onToggleDecoder` leaves `isEnabled()` false, not its negation. -/
theorem onToggleDecoder_keeps_flag :
    tabABC.toggleChecked = false ∧ tabABC.isEnabled = false ∧
      (onToggleDecoder tabABC).isEnabled = false := by
  decide

/-- C11 as amended: `onToggleDecoder` sets the enabled flag to the check
state of the toggle button, so the flag is flipped when the button differs
from it; the rebuild then runs once on the tab that already has the new flag,
and `toggled` is emitted last, after the rebuild's own last call `changed`. -/
theorem onToggleDecoder_order (t : DecoderTab) :
    (onToggleDecoder t).isEnabled = t.toggleChecked ∧
      (t.toggleChecked = !t.isEnabled → (onToggleDecoder t).isEnabled = !t.isEnabled) ∧
      onToggleDecoder t =
        { rebuildStack { t with enabled := t.toggleChecked } with
          trace := (rebuildStack { t with enabled := t.toggleChecked }).trace ++
            [Event.toggled] } ∧
      ∃ pre, (onToggleDecoder t).trace = t.trace ++ pre ++ [Event.changed, Event.toggled] ∧
        Event.toggled ∉ pre ∧
        connectResults (pre ++ [Event.changed]) = [(onToggleDecoder t).isReady] := by
  have hen : (onToggleDecoder t).isEnabled = t.toggleChecked := by
    unfold onToggleDecoder isEnabled
    exact (rebuildStack_frame _).1
  refine ⟨hen, ?_, rfl, ?_⟩
  · intro h; rw [hen, h]
  · obtain ⟨pre, hp, hnot⟩ := rebuildTrace_last { t with enabled := t.toggleChecked }
    refine ⟨pre, ?_, hnot, ?_⟩
    · show (rebuildStack { t with enabled := t.toggleChecked }).trace ++ [Event.toggled] = _
      rw [rebuildStack_trace_eq, hp]
      simp
    · rw [← hp, connectResults_rebuildTrace]
      rfl

/-- Witness of the amended C11: the scenario [A, B, C] with the button
checked and the flag still false. -/
theorem onToggleDecoder_order_witness :
    ({ tabABC with toggleChecked := true } : DecoderTab).isEnabled = false ∧
      (onToggleDecoder { tabABC with toggleChecked := true }).isEnabled = true :=
  ⟨by decide,
    (onToggleDecoder_order { tabABC with toggleChecked := true }).2.1 (by decide)⟩

theorem setFailedAt_map {α : Type} (f : LayerItem → α)
    (hf : ∀ (it : LayerItem) (b : Bool), f { it with failed := b } = f it)
    (items : List LayerItem) (idx : Nat) (b : Bool) :
    (setFailedAt items idx b).map f = items.map f := by
  unfold setFailedAt
  cases hi : items[idx]? with
  | none => rfl
  | some item =>
    apply List.ext_getElem?
    intro n
    simp only [List.getElem?_map]
    by_cases hn : idx = n
    · subst hn
      have hlt : idx < items.length := (List.getElem?_eq_some_iff.1 hi).1
      rw [List.getElem?_set_self hlt, hi]
      simp [hf]
    · rw [List.getElem?_set_ne hn]

theorem markFailed_map {α : Type} (f : LayerItem → α)
    (hf : ∀ (it : LayerItem) (b : Bool), f { it with failed := b } = f it)
    (fs : List Decoder) :
    ∀ t : DecoderTab, (markFailed fs t).items.map f = t.items.map f := by
  induction fs with
  | nil => intro t; rfl
  | cons g rest ih =>
    intro t
    unfold markFailed
    split
    · cases hl : t.userData.lookup g.id with
      | none => exact ih t
      | some idx =>
        show (markFailed rest _).items.map f = _
        rw [ih]
        exact setFailedAt_map f hf _ _ _
    · exact ih t

theorem rebuildStack_map {α : Type} (f : LayerItem → α)
    (hf : ∀ (it : LayerItem) (b : Bool), f { it with failed := b } = f it)
    (t : DecoderTab) : (rebuildStack t).items.map f = t.items.map f := by
  have hu : (t.items.map unflag).map f = t.items.map f := by
    rw [List.map_map]
    apply List.map_congr_left
    intro it _
    cases hd : it.data with
    | none => simp [unflag, hd]
    | some o =>
      have h2 := hf it false
      rw [hd] at h2
      simpa [unflag, hd] using h2
  rw [rebuildStack_eq]
  cases hc : (assemble t).stack.connect.1 with
  | true => simpa [assemble_items] using hu
  | false =>
    simp only [Bool.false_eq_true, if_false]
    rw [markFailed_map f hf, assemble_items]
    exact hu

theorem assemble_enabled (t : DecoderTab) (b : Bool) :
    assemble { t with enabled := b } = { assemble t with enabled := b } := by
  rw [assemble_eq, assemble_eq]
  unfold pushTermination
  cases h : t.termination <;> simp [h]

theorem rebuildStack_enabled (t : DecoderTab) (b : Bool) :
    rebuildStack { t with enabled := b } = { rebuildStack t with enabled := b } := by
  rw [rebuildStack_eq, rebuildStack_eq, assemble_enabled]
  simp only [DecoderTab.mk.injEq, and_true, true_and]
  cases hc : (assemble t).stack.connect.1 with
  | true => simp
  | false =>
    simp only [Bool.false_eq_true, if_false]
    exact markFailed_items_indep _ _ _ rfl rfl rfl

theorem onToggleDecoder_items (t : DecoderTab) :
    (onToggleDecoder t).items = (rebuildStack { t with enabled := t.toggleChecked }).items :=
  rfl

theorem onToggleDecoder_stack (t : DecoderTab) :
    (onToggleDecoder t).stack = (rebuildStack { t with enabled := t.toggleChecked }).stack :=
  rfl

theorem onToggleDecoder_termination (t : DecoderTab) :
    (onToggleDecoder t).termination = t.termination := by
  show (rebuildStack { t with enabled := t.toggleChecked }).termination = _
  rw [rebuildStack_termination]

/-- C12: two calls of `onToggleDecoder`, whatever the check state of the
button at each, leave the rows as they were: as many rows, each with the
name, description and payload it had, in the same order; the stack the
final rebuild leaves is the one a rebuild of the tab before the toggles
leaves (the stages of the rows followed by the termination stage); and the
result of `rebuildStack` does not depend on the enabled flag. -/
theorem onToggleDecoder_twice_frame (t : DecoderTab) (b1 b2 : Bool) :
    (onToggleDecoder
        { onToggleDecoder { t with toggleChecked := b1 } with toggleChecked := b2 }).items.length =
        t.items.length ∧
      (onToggleDecoder
        { onToggleDecoder { t with toggleChecked := b1 } with toggleChecked := b2 }).items.map
          (fun it => (it.name, it.description, it.data)) =
        t.items.map (fun it => (it.name, it.description, it.data)) ∧
      (onToggleDecoder
        { onToggleDecoder { t with toggleChecked := b1 } with toggleChecked := b2 }).stack.decoders =
        (rebuildStack t).stack.decoders ∧
      (rebuildStack t).stack.decoders = stages t.items ++ t.termination.toList ∧
      ∀ b : Bool, rebuildStack { t with enabled := b } = { rebuildStack t with enabled := b } := by
  have hf : ∀ (it : LayerItem) (b : Bool),
      (fun it : LayerItem => (it.name, it.description, it.data)) { it with failed := b } =
        (fun it : LayerItem => (it.name, it.description, it.data)) it := by
    intro it b; rfl
  have hmap : (onToggleDecoder
      { onToggleDecoder { t with toggleChecked := b1 } with toggleChecked := b2 }).items.map
        (fun it => (it.name, it.description, it.data)) =
      t.items.map (fun it => (it.name, it.description, it.data)) := by
    rw [onToggleDecoder_items, rebuildStack_map _ hf]
    show (onToggleDecoder { t with toggleChecked := b1 }).items.map _ = _
    rw [onToggleDecoder_items, rebuildStack_map _ hf]
  refine ⟨?_, hmap, ?_, rebuildStack_decoders t, rebuildStack_enabled t⟩
  · have := congrArg List.length hmap
    simpa using this
  · have h1 : ∀ l : List LayerItem,
        stages l = (l.map (fun it => it.data)).filterMap (fun d => d.map (fun o => o.decoder)) := by
      intro l; rw [List.filterMap_map]; rfl
    rw [onToggleDecoder_stack, rebuildStack_decoders, rebuildStack_decoders]
    show stages (onToggleDecoder { t with toggleChecked := b1 }).items ++
      (onToggleDecoder { t with toggleChecked := b1 }).termination.toList = _
    rw [onToggleDecoder_termination]
    have hs : stages (onToggleDecoder { t with toggleChecked := b1 }).items = stages t.items := by
      rw [h1, h1]
      have hd1 : (onToggleDecoder { t with toggleChecked := b1 }).items.map (fun it => it.data) =
          t.items.map (fun it => it.data) := by
        rw [onToggleDecoder_items]
        exact rebuildStack_data _
      rw [hd1]
    rw [hs]

theorem findLayerItemFrom_cons (ui : Option Nat) (k : Nat) (item : LayerItem)
    (rest : List LayerItem) :
    findLayerItemFrom ui k (item :: rest) =
      if ownsWidget ui item then (k : Int) else findLayerItemFrom ui (k + 1) rest := by
  cases hd : item.data with
  | none => simp [findLayerItemFrom, ownsWidget, hd]
  | some o => simp [findLayerItemFrom, ownsWidget, hd]

theorem findLayerItemFrom_none (ui : Option Nat) (items : List LayerItem) :
    ∀ k : Nat, (∀ it ∈ items, ownsWidget ui it = false) → findLayerItemFrom ui k items = -1 := by
  induction items with
  | nil => intro k _; rfl
  | cons item rest ih =>
    intro k h
    rw [findLayerItemFrom_cons, h item (List.mem_cons_self _ _)]
    simp only [Bool.false_eq_true, if_false]
    exact ih (k + 1) (fun it hit => h it (List.mem_cons_of_mem _ hit))

theorem findLayerItemFrom_first (ui : Option Nat) (items : List LayerItem) :
    ∀ (k i : Nat) (item : LayerItem), items[i]? = some item → ownsWidget ui item = true →
      (∀ (j : Nat) (it : LayerItem), j < i → items[j]? = some it → ownsWidget ui it = false) →
      findLayerItemFrom ui k items = ((k + i : Nat) : Int) := by
  induction items with
  | nil => intro k i item h; simp at h
  | cons r rest ih =>
    intro k i item hi hown hfirst
    rw [findLayerItemFrom_cons]
    cases i with
    | zero =>
      simp only [List.getElem?_cons_zero, Option.some.injEq] at hi
      subst hi
      simp [hown]
    | succ i =>
      have h0 : ownsWidget ui r = false := hfirst 0 r (Nat.succ_pos i) (by simp)
      simp only [h0, Bool.false_eq_true, if_false]
      simp only [List.getElem?_cons_succ] at hi
      rw [ih (k + 1) i item hi hown
        (fun j it hj hit => hfirst (j + 1) it (Nat.succ_lt_succ hj) (by simpa using hit))]
      congr 1
      omega

/-- C13: when row `i` is the first row whose UI widget is the widget of the
closed window, `findLayerItem` returns `i` and the close filter erases
exactly that row and rebuilds once: the list is one row shorter and the
other rows keep name, description, payload and order.  When no row owns the
widget, `findLayerItem` returns -1 and a close event leaves the tab as it
is; an event that is not a close event leaves the tab as it is. -/
theorem eventFilter_removes_owner (t : DecoderTab) (child : Option Nat) (i : Nat)
    (item : LayerItem) (hi : t.items[i]? = some item) (hown : ownsWidget child item = true)
    (hfirst : ∀ (j : Nat) (it : LayerItem), j < i → t.items[j]? = some it →
      ownsWidget child it = false) :
    (∃ (o : DecoderObjects) (w : Nat), item.data = some o ∧ o.ui = some w ∧ child = some w) ∧
      findLayerItem t child = (i : Int) ∧
      eventFilter t true child =
        rebuildStack
          { t with
            items := t.items.eraseIdx i
            userData := deleteObjects t.userData item.data } ∧
      (eventFilter t true child).items.length + 1 = t.items.length ∧
      (eventFilter t true child).items.map (fun it => (it.name, it.description, it.data)) =
        (t.items.eraseIdx i).map (fun it => (it.name, it.description, it.data)) ∧
      connectResults ((eventFilter t true child).trace.drop t.trace.length) =
        [(eventFilter t true child).ready] ∧
      (∀ c : Option Nat, (∀ it ∈ t.items, ownsWidget c it = false) →
        findLayerItem t c = -1 ∧ eventFilter t true c = t) ∧
      (∀ c : Option Nat, eventFilter t false c = t) := by
  have hfind : findLayerItem t child = (i : Int) := by
    unfold findLayerItem
    rw [findLayerItemFrom_first child t.items 0 i item hi hown hfirst]
    simp
  have hev : eventFilter t true child =
      rebuildStack
        { t with
          items := t.items.eraseIdx i
          userData := deleteObjects t.userData item.data } := by
    unfold eventFilter
    have hne : ((i : Int) ≠ -1) := by omega
    simp only [if_true, hfind, hne, ne_eq, not_false_eq_true, Int.toNat_ofNat, hi]
  have hf : ∀ (it : LayerItem) (b : Bool),
      (fun it : LayerItem => (it.name, it.description, it.data)) { it with failed := b } =
        (fun it : LayerItem => (it.name, it.description, it.data)) it := by
    intro it b; rfl
  have hlt : i < t.items.length := (List.getElem?_eq_some_iff.1 hi).1
  refine ⟨?_, hfind, hev, ?_, ?_, ?_, ?_, ?_⟩
  · cases hd : item.data with
    | none => simp [ownsWidget, hd] at hown
    | some o =>
      cases hu : o.ui with
      | none => simp [ownsWidget, hd, hu] at hown
      | some w =>
        refine ⟨o, w, rfl, hu, ?_⟩
        have : (some w : Option Nat) = child := by simpa [ownsWidget, hd, hu] using hown
        exact this.symm
  · rw [hev, rebuildStack_length]
    show (t.items.eraseIdx i).length + 1 = t.items.length
    rw [List.length_eraseIdx, if_pos hlt]
    omega
  · rw [hev, rebuildStack_map _ hf]
  · rw [hev]
    exact connectResults_rebuildStack
      { t with
        items := t.items.eraseIdx i
        userData := deleteObjects t.userData item.data }
  · intro c hc
    have hfc : findLayerItem t c = -1 := findLayerItemFrom_none c t.items 0 hc
    refine ⟨hfc, ?_⟩
    unfold eventFilter
    simp [hfc]
  · intro c
    simp [eventFilter]

/-- Witness of C13: in the scenario with auxiliary windows, the window of
widget 8 (row 2, stage C) is closed. -/
theorem eventFilter_removes_owner_witness :
    findLayerItem tabUi (some 8) = 2 ∧
      (eventFilter tabUi true (some 8)).items.length + 1 = tabUi.items.length ∧
      (eventFilter tabUi true (some 8)).stack.decoders.map (fun d => d.id) = [10, 11, 99] ∧
      eventFilter tabUi true (some 9) = tabUi :=
  have h := eventFilter_removes_owner tabUi (some 8) 2 (rowWithUi stageC 8) rfl (by decide)
    (by
      intro j it hj hit
      have hj2 : j = 0 ∨ j = 1 := by omega
      rcases hj2 with rfl | rfl
      · have : it = rowOf stageA := (Option.some.inj hit).symm
        subst this; rfl
      · have : it = rowWithUi stageB 7 := (Option.some.inj hit).symm
        subst this; rfl)
  ⟨h.2.1, h.2.2.2.1, by decide,
    (h.2.2.2.2.2.2.1 (some 9) (by
      intro it hit
      have hmem : it = rowOf stageA ∨ it = rowWithUi stageB 7 ∨ it = rowWithUi stageC 8 := by
        simpa [tabUi, tabOf] using hit
      rcases hmem with rfl | rfl | rfl <;> rfl)).2⟩

theorem stackCalls_run (ds : List Decoder) (buf : List Symbol) :
    stackCalls (DecoderStack.run ds buf) = [] := by
  unfold stackCalls
  rw [List.filter_eq_nil_iff]
  intro e he
  obtain ⟨d, b, rfl⟩ := run_mem ds buf e he
  simp

/-- C14: for every tab and every buffer, the calls `DecoderTab::feed` makes
on the stack are `feed` with that buffer, once, followed by `flush`, once;
the other calls it records are the `work` invocations the stack's `feed`
causes in between; the enabled and ready flags play no part. -/
theorem feed_calls_stack (t : DecoderTab) (samples : List Symbol) :
    stackCalls ((feed t samples).trace.drop t.trace.length) =
        [Event.stackFeed samples, Event.stackFlush] ∧
      (∃ works, (feed t samples).trace =
          t.trace ++ Event.stackFeed samples :: works ++ [Event.stackFlush] ∧
        ∀ e ∈ works, ∃ d b, e = Event.work d b) ∧
      ∀ b r : Bool,
        stackCalls ((feed { t with enabled := b, ready := r } samples).trace.drop
          t.trace.length) = [Event.stackFeed samples, Event.stackFlush] := by
  have hw : ∀ e ∈ t.stack.feed samples, ∃ d b, e = Event.work d b := by
    intro e he
    unfold DecoderStack.feed at he
    split at he
    · exact run_mem _ _ e he
    · simp at he
  have hs : stackCalls (t.stack.feed samples) = [] := by
    unfold stackCalls
    rw [List.filter_eq_nil_iff]
    intro e he
    obtain ⟨d, b, rfl⟩ := hw e he
    simp
  have key : stackCalls ((feed t samples).trace.drop t.trace.length) =
      [Event.stackFeed samples, Event.stackFlush] := by
    have ht : (feed t samples).trace = t.trace ++
        (Event.stackFeed samples :: t.stack.feed samples ++ [Event.stackFlush]) := by
      simp [feed, DecoderStack.flush]
    rw [ht, List.drop_left]
    simp only [stackCalls] at hs ⊢
    simp [List.filter_cons, List.filter_append, hs]
  refine ⟨key, ⟨t.stack.feed samples, ?_, hw⟩, ?_⟩
  · simp [feed, DecoderStack.flush]
  · intro b r
    exact key

/-- C15, the code at the failing input: an inspector around a tab without
rows, toggled on and off again, is bypassed with the symbol view at the
demodulator's width 1; adding stage B (1 → 2) rebuilds, `connect()` offers
width 2 to the termination stage, which writes it into the symbol view, and
`onDecoderTabChanged` does not refresh because the chain is bypassed: the
symbol view is left at 2 while `getDemodBps` and `getBps` are 1. -/
theorem bypassed_symView_after_edit :
    ((InspectorUI.clickToggle (uiOf (tabOf [] 0) false)).bind InspectorUI.clickToggle).toOption.map
        (fun u => (u.decoderChainEnabled, u.symViewBps, u.getDemodBps)) = some (false, 1, 1) ∧
      (((InspectorUI.clickToggle (uiOf (tabOf [] 0) false)).bind InspectorUI.clickToggle).bind
        (fun u => InspectorUI.tabOp u (Op.onAddDecoder true (some factoryB)))).toOption.map
        (fun u => (u.decoderChainEnabled, u.decoderTab.isReady, u.symViewBps, u.getDemodBps,
          u.getBps)) = some (false, true, 2, 1, 1) := by
  decide

theorem feedSymbols_calls (u : InspectorUI) (data : List Sample) :
    (u.feedSymbols data).calls =
      u.calls ++
        (if u.demodulating = true ∧ 0 < u.deciderBps then
          (if u.decoderChainEnabled then
            [UiEvent.tabFeed (u.decider data), UiEvent.transitionFeed (u.decider data)]
          else [UiEvent.symViewFeed (u.decider data), UiEvent.transitionFeed (u.decider data)])
        else []) := by
  unfold InspectorUI.feedSymbols
  by_cases hd : u.demodulating = true
  · by_cases hb : u.deciderBps > 0
    · cases hc : u.decoderChainEnabled <;> simp [hd, hb]
    · simp [hd, hb]
  · simp [hd]

theorem feedSymbols_tab (u : InspectorUI) (data : List Sample) :
    (u.feedSymbols data).decoderTab =
      if u.demodulating = true ∧ 0 < u.deciderBps ∧ u.decoderChainEnabled = true then
        u.decoderTab.feed (u.decider data)
      else u.decoderTab := by
  unfold InspectorUI.feedSymbols
  by_cases hd : u.demodulating = true
  · by_cases hb : u.deciderBps > 0
    · cases hc : u.decoderChainEnabled <;> simp [hd, hb]
    · simp [hd, hb]
  · simp [hd]

theorem feed_ok (ui ui' : InspectorUI) (data : List Sample)
    (h : ui.feed data = Except.ok ui') :
    ui'.decoderTab =
        (InspectorUI.feedSymbols
          { ui with
            calls := ui.calls ++
              [UiEvent.constellationFeed data.length, UiEvent.histogramFeed data.length] }
          data).decoderTab ∧
      ∃ tail, ui'.calls =
          (InspectorUI.feedSymbols
            { ui with
              calls := ui.calls ++
                [UiEvent.constellationFeed data.length, UiEvent.histogramFeed data.length] }
            data).calls ++ tail ∧
        InspectorUI.routed tail = [] := by
  unfold InspectorUI.feed InspectorUI.feedRecord at h
  split at h
  · split at h
    · simp only [Except.ok.injEq] at h
      subst h
      exact ⟨rfl, [UiEvent.saverWrite data.length], rfl, rfl⟩
    · cases h
  · simp only [Except.ok.injEq] at h
    subst h
    exact ⟨rfl, [], by simp, rfl⟩

/-- C16: whenever `InspectorUI::feed` completes, the decided symbols went to
exactly one consumer.  Demodulating with a decider width above 0 and the
chain enabled, the only routing call is `DecoderTab::feed` with the decided
symbols, which the tab has then processed; with the chain bypassed the only
routing call feeds them to the symbol view and the tab is untouched; when
not demodulating or with decider width 0 there is no routing call and the
tab is untouched. -/
theorem feed_routes (ui ui' : InspectorUI) (data : List Sample)
    (h : ui.feed data = Except.ok ui') :
    (ui.demodulating = true ∧ 0 < ui.deciderBps ∧ ui.decoderChainEnabled = true →
        InspectorUI.routed (ui'.calls.drop ui.calls.length) =
          [UiEvent.tabFeed (ui.decider data)] ∧
        ui'.decoderTab = ui.decoderTab.feed (ui.decider data)) ∧
      (ui.demodulating = true ∧ 0 < ui.deciderBps ∧ ui.decoderChainEnabled = false →
        InspectorUI.routed (ui'.calls.drop ui.calls.length) =
          [UiEvent.symViewFeed (ui.decider data)] ∧
        ui'.decoderTab = ui.decoderTab) ∧
      (ui.demodulating = false ∨ ui.deciderBps = 0 →
        InspectorUI.routed (ui'.calls.drop ui.calls.length) = [] ∧
        ui'.decoderTab = ui.decoderTab) := by
  obtain ⟨htab, tail, hcalls, htail⟩ := feed_ok ui ui' data h
  rw [feedSymbols_tab] at htab
  rw [feedSymbols_calls] at hcalls
  simp only [InspectorUI.routed] at htail
  have hdrop : ∀ l : List UiEvent,
      ui'.calls = ui.calls ++
        [UiEvent.constellationFeed data.length, UiEvent.histogramFeed data.length] ++ l ++ tail →
      InspectorUI.routed (ui'.calls.drop ui.calls.length) = InspectorUI.routed l := by
    intro l hl
    rw [hl, List.append_assoc, List.append_assoc, List.drop_left]
    simp [InspectorUI.routed, List.filter_append, htail]
  refine ⟨?_, ?_, ?_⟩
  · rintro ⟨hd, hb, hc⟩
    simp only [hd, hb, hc, and_self, if_true] at htab hcalls
    exact ⟨by rw [hdrop _ hcalls]; rfl, htab⟩
  · rintro ⟨hd, hb, hc⟩
    simp only [hd, hb, hc, and_self, if_true, Bool.false_eq_true, and_false, if_false]
      at htab hcalls
    exact ⟨by rw [hdrop _ hcalls]; rfl, htab⟩
  · intro hor
    have hno : ¬ (ui.demodulating = true ∧ 0 < ui.deciderBps) := by
      rintro ⟨hd, hb⟩
      rcases hor with h1 | h1
      · rw [hd] at h1; cases h1
      · omega
    have hno2 : ¬ (ui.demodulating = true ∧ 0 < ui.deciderBps ∧
        ui.decoderChainEnabled = true) := fun hx => hno ⟨hx.1, hx.2.1⟩
    simp only [hno, hno2, if_false] at htab hcalls
    exact ⟨by rw [hdrop _ hcalls]; rfl, htab⟩

/-- Witness of C16: the connected scenario [A, B, C] with the chain enabled,
fed three samples. -/
theorem feed_routes_witness :
    ∃ ui', (uiOf (rebuildStack tabABC) true).feed [1, 2, 3] = Except.ok ui' ∧
      InspectorUI.routed (ui'.calls.drop (uiOf (rebuildStack tabABC) true).calls.length) =
        [UiEvent.tabFeed [1, 0, 1]] ∧
      ui'.decoderTab = (rebuildStack tabABC).feed [1, 0, 1] :=
  ⟨_, rfl, (feed_routes (uiOf (rebuildStack tabABC) true) _ [1, 2, 3] rfl).1
    ⟨rfl, by decide, rfl⟩⟩

/-- C17: `getBps` is the decoder tab's output width when the chain is enabled
and `getDemodBps` when it is bypassed, with 0 replaced by 1, so it is at
least 1 in every state; `getDemodBps` is the value (as `unsigned int`) of
`afc.bits-per-symbol` when that is configured, else of
`fsk.bits-per-symbol`, else of `ask.bits-per-symbol`, and 1 when none is. -/
theorem getBps_spec (ui : InspectorUI) (a f k : Nat) (fo ko : Option Nat) :
    ({ ui with decoderChainEnabled := true } : InspectorUI).getBps =
        (if ui.decoderTab.getOutputBps = 0 then 1 else ui.decoderTab.getOutputBps) ∧
      ({ ui with decoderChainEnabled := false } : InspectorUI).getBps =
        (if ui.getDemodBps = 0 then 1 else ui.getDemodBps) ∧
      1 ≤ ui.getBps ∧
      ({ ui with afcBps := some a, fskBps := fo, askBps := ko } : InspectorUI).getDemodBps =
        a % 4294967296 ∧
      ({ ui with afcBps := none, fskBps := some f, askBps := ko } : InspectorUI).getDemodBps =
        f % 4294967296 ∧
      ({ ui with afcBps := none, fskBps := none, askBps := some k } : InspectorUI).getDemodBps =
        k % 4294967296 ∧
      ({ ui with afcBps := none, fskBps := none, askBps := none } : InspectorUI).getDemodBps =
        1 := by
  refine ⟨rfl, rfl, ?_, rfl, rfl, rfl, rfl⟩
  have key : ∀ n : Nat, 1 ≤ (if n = 0 then 1 else n) := by
    intro n
    split
    · exact Nat.le_refl 1
    · rename_i hne
      exact Nat.one_le_iff_ne_zero.2 hne
  exact key _

/-- C18, the code at the failing input: after `onRemoveDecoder(1)` on the
rebuilt scenario [A, B, C] the list still has three rows, row 1 being a
whiteout; `onSelectDecoder(1)` and `onRemoveDecoder(1)` on that row both read
`objects->ui` through the null payload, while the rows with a payload are
handled without fault. -/
theorem whiteout_row_faults :
    (onRemoveDecoder (rebuildStack tabABC) 1).toOption.map
        (fun t => (t.items.map (fun it => it.data.isSome),
          faultOf (onSelectDecoder t 1), faultOf (onRemoveDecoder t 1),
          faultOf (onSelectDecoder t 0), faultOf (onRemoveDecoder t 2))) =
      some ([true, false, true], some Fault.nullDereference, some Fault.nullDereference,
        none, none) := by
  decide

/-- C19, the code at the failing input: from the initial state (not
recording, no data saver) with the record button checked, `onToggleRecord`
installs the data saver and sets `recording`; `onSaveError` (and likewise
`onSaveSwamped`) then uninstalls the data saver but leaves `recording` true,
and the next `feed` writes through the absent data saver. -/
theorem recording_without_saver :
    (uiOf tabABC false).recording = false ∧ (uiOf tabABC false).dataSaver = none ∧
      (({ uiOf tabABC false with recordState := true } : InspectorUI).onToggleRecord 5).recording
        = true ∧
      (({ uiOf tabABC false with recordState := true } : InspectorUI).onToggleRecord 5).dataSaver
        = some 5 ∧
      (({ uiOf tabABC false with recordState := true } : InspectorUI).onToggleRecord
        5).onSaveError.recording = true ∧
      (({ uiOf tabABC false with recordState := true } : InspectorUI).onToggleRecord
        5).onSaveError.dataSaver = none ∧
      faultOf ((({ uiOf tabABC false with recordState := true } : InspectorUI).onToggleRecord
        5).onSaveError.feed [1, 2]) = some Fault.nullDereference ∧
      (({ uiOf tabABC false with recordState := true } : InspectorUI).onToggleRecord
        5).onSaveSwamped.recording = true ∧
      faultOf ((({ uiOf tabABC false with recordState := true } : InspectorUI).onToggleRecord
        5).onSaveSwamped.feed [1, 2]) = some Fault.nullDereference := by
  decide

end SigDigger
